import Mathlib

/-!
# A verification development of the gohome Monitor subsystem

This file embeds the `Monitor` type of the gohome repository (file
`monitor.go`, package `gohome`) as a collection of pure Lean functions and
proves properties of the subscription lifecycle, value caching, refresh
logic, change fan-out and expiry sweep.

Modelling conventions:
* Go `map[string]V` becomes an association list `List (String × V)` with
  first-match lookup (`lookupA`), in-place update (`insertA`) and
  key-removal (`eraseA`).  Go `map[string]bool` used as a set becomes
  `List String` with membership-checking insertion (`insertSet`).
* `time.Time` / `time.Duration` become `Nat`; `time.Now()` is passed in
  explicitly as a `now : Nat` argument to the operations that read the
  clock (`Subscribe`, `SubscribeRenew`, the expiry sweep).
* Calls the Monitor makes to the outside world (delegate `Update`/`Expired`
  invocations and event-bus `Enqueue`s) are collected in a `List Effect`
  returned next to the new state.
* `strconv.Itoa` becomes `Itoa`, a fuel-based decimal renderer.
-/

/-- First-match lookup in an association list, the model of a Go map read
`v, ok := m[k]` (`none` plays the role of `ok == false`). -/
def lookupA {α : Type} : List (String × α) → String → Option α
  | [], _ => none
  | (k, v) :: rest, key => if k = key then some v else lookupA rest key

/-- In-place update of an association list, the model of a Go map write
`m[k] = v`: the first binding of `key` is replaced, otherwise the binding
is appended. -/
def insertA {α : Type} : List (String × α) → String → α → List (String × α)
  | [], key, v => [(key, v)]
  | (k, w) :: rest, key, v =>
      if k = key then (key, v) :: rest else (k, w) :: insertA rest key v

/-- Key removal from an association list, the model of Go `delete(m, k)`. -/
def eraseA {α : Type} (m : List (String × α)) (key : String) : List (String × α) :=
  m.filter (fun p => p.1 ≠ key)

/-- Iterated `eraseA`, the model of a Go loop deleting every listed key. -/
def eraseAll {α : Type} (m : List (String × α)) (keys : List String) : List (String × α) :=
  keys.foldl eraseA m

/-- Set insertion on a `List String` modelling a Go `map[string]bool` used
as a set (`s[x] = true`). -/
def insertSet (s : List String) (x : String) : List String :=
  if x ∈ s then s else s ++ [x]

/-- Fuel-based decimal digit accumulation, the model of the divide-by-ten
loop inside Go `strconv.Itoa` (the fuel argument only makes the recursion
structural; `Itoa` always supplies enough of it). -/
def itoaCore : Nat → Nat → List Char → List Char
  | 0, _, acc => acc
  | fuel + 1, n, acc =>
      if n < 10 then Nat.digitChar n :: acc
      else itoaCore fuel (n / 10) (Nat.digitChar (n % 10) :: acc)

/-- The model of Go `strconv.Itoa` on natural numbers: decimal rendering. -/
def Itoa (n : Nat) : String :=
  ⟨itoaCore (n + 1) n []⟩

/-- Modelled from the spec: `SensorAttr`, the sensor value type of package
gohome, is not under the sources provided; per the spec a sensor reports an
attribute value, and the Monitor's dedupe step compares only the `Value`
field of two attributes. -/
structure SensorAttr where
  Name : String
  Value : String
deriving DecidableEq, Repr

/-- Modelled from the spec: `cmd.Level`, the zone level type of package
cmd, is not under the sources provided; the Monitor uses it only as a value
compared for (decidable) whole-value equality, so it is abstracted as a
numeric level. -/
structure Level where
  Value : Nat
deriving DecidableEq, Repr

/-- `MonitorGroup` (monitor.go): a client subscription.  The delegate
`Handler` is abstracted as an opaque capability reference. -/
structure MonitorGroup where
  Zones : List String
  Sensors : List String
  Handler : Nat
  Timeout : Nat
  timeoutAbsolute : Nat
  id : String
deriving DecidableEq, Repr

/-- `ChangeBatch` (monitor.go): sensors and zones whose values are being
reported together. -/
structure ChangeBatch where
  MonitorID : String
  Sensors : List (String × SensorAttr)
  Zones : List (String × Level)
deriving DecidableEq, Repr

/-- An observable call the Monitor makes to the outside world: a delegate
`Update`, a delegate `Expired`, or a report-request enqueued on the event
bus (`SensorsReport` / `ZonesReport`). -/
inductive Effect where
  | update (handler : Nat) (batch : ChangeBatch)
  | expired (handler : Nat) (monitorID : String)
  | sensorsReport (sensorIDs : List String)
  | zonesReport (zoneIDs : List String)
deriving DecidableEq, Repr

/-- The mutable state of `Monitor` (monitor.go).  The `system`, `evtBus`
and `mutex` fields are external collaborators / synchronization and are not
part of the functional state; the lock discipline is modelled separately
below. -/
structure Monitor where
  groups : List (String × MonitorGroup)
  nextID : Nat
  sensorToGroups : List (String × List String)
  zoneToGroups : List (String × List String)
  sensorValues : List (String × SensorAttr)
  zoneValues : List (String × Level)
deriving DecidableEq, Repr

/-- `NewMonitor` (monitor.go): callers may pass initial cached values
(`nil` becomes the empty map); the counter starts at 1 and every index
starts empty. -/
def NewMonitor (sensorValues : Option (List (String × SensorAttr)))
    (zoneValues : Option (List (String × Level))) : Monitor :=
  { groups := []
    nextID := 1
    sensorToGroups := []
    zoneToGroups := []
    sensorValues := sensorValues.getD []
    zoneValues := zoneValues.getD [] }

/-- One iteration of the classification loops in `Refresh` (monitor.go
lines 108-125): a cached value goes into the change batch unless `force`
is set, otherwise the ID goes into the report list. -/
def refreshStep {α : Type} (values : List (String × α)) (force : Bool)
    (acc : List (String × α) × List String) (id : String) :
    List (String × α) × List String :=
  match lookupA values id with
  | some val => if force = false then (acc.1 ++ [(id, val)], acc.2) else (acc.1, acc.2 ++ [id])
  | none => (acc.1, acc.2 ++ [id])

/-- `Monitor.Refresh` (monitor.go): answer from cache what is cached
(unless `force`), request the rest from the bus.  The state is not
modified; only effects are produced. -/
def Monitor.Refresh (m : Monitor) (monitorID : String) (force : Bool) : List Effect :=
  match lookupA m.groups monitorID with
  | none => []
  | some group =>
      let sres := group.Sensors.foldl (refreshStep m.sensorValues force) ([], [])
      let zres := group.Zones.foldl (refreshStep m.zoneValues force) ([], [])
      let changeBatch : ChangeBatch :=
        { MonitorID := monitorID, Sensors := sres.1, Zones := zres.1 }
      (if 0 < sres.1.length ∨ 0 < zres.1.length then
        [Effect.update group.Handler changeBatch] else [])
      ++ (if 0 < sres.2.length then [Effect.sensorsReport sres.2] else [])
      ++ (if 0 < zres.2.length then [Effect.zonesReport zres.2] else [])

/-- `Monitor.InvalidateValues` (monitor.go): drop the cached values of
everything the group lists; indices and groups are untouched. -/
def Monitor.InvalidateValues (m : Monitor) (monitorID : String) : Monitor :=
  match lookupA m.groups monitorID with
  | none => m
  | some group =>
      { m with
        sensorValues := eraseAll m.sensorValues group.Sensors
        zoneValues := eraseAll m.zoneValues group.Zones }

/-- `Monitor.Group` (monitor.go): read-only lookup. -/
def Monitor.Group (m : Monitor) (monitorID : String) : Option MonitorGroup :=
  lookupA m.groups monitorID

/-- `Monitor.setTimeoutOnGroup` (monitor.go): the group expires at
`now + Timeout`. -/
def Monitor.setTimeoutOnGroup (group : MonitorGroup) (now : Nat) : MonitorGroup :=
  { group with timeoutAbsolute := now + group.Timeout }

/-- `Monitor.SubscribeRenew` (monitor.go): an unknown ID is an error and
leaves the state alone; a known group gets a fresh expiry and nothing else
changes. -/
def Monitor.SubscribeRenew (m : Monitor) (monitorID : String) (now : Nat) :
    Except String Unit × Monitor :=
  match lookupA m.groups monitorID with
  | none => (Except.error ("invalid monitor ID: " ++ monitorID), m)
  | some group =>
      (Except.ok (),
        { m with groups := insertA m.groups monitorID (Monitor.setTimeoutOnGroup group now) })

/-- The reverse-index registration loops of `Subscribe` (monitor.go lines
216-232): point every listed entity ID back at the new monitor ID. -/
def addToIndex (monitorID : String) :
    List String → List (String × List String) → List (String × List String)
  | [], idx => idx
  | eid :: rest, idx =>
      addToIndex monitorID rest
        (match lookupA idx eid with
         | some gs => insertA idx eid (insertSet gs monitorID)
         | none => insertA idx eid [monitorID])

/-- `Monitor.Subscribe` (monitor.go): reject empty groups; otherwise assign
the next numeric ID, store the group with its expiry, register the reverse
indices, and optionally refresh. -/
def Monitor.Subscribe (m : Monitor) (g : MonitorGroup) (refresh : Bool) (now : Nat) :
    Except String String × Monitor × List Effect :=
  if g.Sensors.length = 0 ∧ g.Zones.length = 0 then
    (Except.error "no zones or sensors listed in the monitor group", m, [])
  else
    let monitorID := Itoa m.nextID
    let g2 := Monitor.setTimeoutOnGroup { g with id := monitorID } now
    let m2 : Monitor :=
      { m with
        nextID := m.nextID + 1
        groups := insertA m.groups monitorID g2
        sensorToGroups := addToIndex monitorID g.Sensors m.sensorToGroups
        zoneToGroups := addToIndex monitorID g.Zones m.zoneToGroups }
    (Except.ok monitorID, m2, if refresh then m2.Refresh monitorID false else [])

/-- The cleanup loops of `Unsubscribe` (monitor.go lines 250-270): drop the
monitor ID from every reverse-index entry; an entry that becomes empty is
removed together with the cached value of its entity. -/
def removeGroupFromIndex {α : Type} (monitorID : String) :
    List (String × List String) → List (String × α) →
    List (String × List String) × List (String × α)
  | [], vals => ([], vals)
  | (eid, gs) :: rest, vals =>
      if monitorID ∈ gs then
        let gs2 := gs.filter (fun x => x ≠ monitorID)
        if gs2.length = 0 then
          removeGroupFromIndex monitorID rest (eraseA vals eid)
        else
          let r := removeGroupFromIndex monitorID rest vals
          ((eid, gs2) :: r.1, r.2)
      else
        let r := removeGroupFromIndex monitorID rest vals
        ((eid, gs) :: r.1, r.2)

/-- `Monitor.Unsubscribe` (monitor.go): a no-op on unknown IDs; otherwise
remove the group, scrub both reverse indices and evict cached values whose
last referencing group was this one.  `Unsubscribe` itself makes no
delegate or bus calls, which the empty effect list records. -/
def Monitor.Unsubscribe (m : Monitor) (monitorID : String) : Monitor × List Effect :=
  match lookupA m.groups monitorID with
  | none => (m, [])
  | some _ =>
      let sres := removeGroupFromIndex monitorID m.sensorToGroups m.sensorValues
      let zres := removeGroupFromIndex monitorID m.zoneToGroups m.zoneValues
      ({ m with
          groups := eraseA m.groups monitorID
          sensorToGroups := sres.1
          sensorValues := sres.2
          zoneToGroups := zres.1
          zoneValues := zres.2 }, [])

/-- `Monitor.sensorAttrChanged` (monitor.go): ignore unmonitored sensors,
dedupe on `Value` equality against the cache, otherwise record the value
and fan a single-sensor batch out to every interested group.  (On a
reachable state every interested group ID is live; a dangling ID would be
a nil dereference in the source and contributes no effect here.) -/
def Monitor.sensorAttrChanged (m : Monitor) (sensorID : String) (attr : SensorAttr) :
    Monitor × List Effect :=
  match lookupA m.sensorToGroups sensorID with
  | none => (m, [])
  | some groups =>
      let discard :=
        match lookupA m.sensorValues sensorID with
        | some currentVal => currentVal.Value == attr.Value
        | none => false
      if discard then (m, [])
      else
        let m2 := { m with sensorValues := insertA m.sensorValues sensorID attr }
        (m2, groups.filterMap (fun groupID =>
          (lookupA m.groups groupID).map (fun group =>
            Effect.update group.Handler
              { MonitorID := groupID, Sensors := [(sensorID, attr)], Zones := [] })))

/-- `Monitor.zoneLevelChanged` (monitor.go): the zone twin of
`Monitor.sensorAttrChanged`, deduping on whole-level equality. -/
def Monitor.zoneLevelChanged (m : Monitor) (zoneID : String) (val : Level) :
    Monitor × List Effect :=
  match lookupA m.zoneToGroups zoneID with
  | none => (m, [])
  | some groups =>
      let discard :=
        match lookupA m.zoneValues zoneID with
        | some currentVal => currentVal == val
        | none => false
      if discard then (m, [])
      else
        let m2 := { m with zoneValues := insertA m.zoneValues zoneID val }
        (m2, groups.filterMap (fun groupID =>
          (lookupA m.groups groupID).map (fun group =>
            Effect.update group.Handler
              { MonitorID := groupID, Sensors := [], Zones := [(zoneID, val)] })))

/-- One wake-up of the expiry sweep in `handleTimeouts` (monitor.go):
collect the groups whose absolute expiry lies strictly before `now`, then
unsubscribe each and report `Expired` to its delegate. -/
def Monitor.sweepOnce (m : Monitor) (now : Nat) : Monitor × List Effect :=
  let expired := (m.groups.map Prod.snd).filter (fun group => group.timeoutAbsolute < now)
  expired.foldl
    (fun acc group =>
      let r := acc.1.Unsubscribe group.id
      (r.1, acc.2 ++ r.2 ++ [Effect.expired group.Handler group.id]))
    (m, [])

/-- One state transition of the Monitor: any public operation, any bus
event application, or one expiry sweep. -/
inductive Step : Monitor → Monitor → Prop where
  | subscribe (m : Monitor) (g : MonitorGroup) (refresh : Bool) (now : Nat) :
      Step m (m.Subscribe g refresh now).2.1
  | unsubscribe (m : Monitor) (monitorID : String) :
      Step m (m.Unsubscribe monitorID).1
  | subscribeRenew (m : Monitor) (monitorID : String) (now : Nat) :
      Step m (m.SubscribeRenew monitorID now).2
  | invalidateValues (m : Monitor) (monitorID : String) :
      Step m (m.InvalidateValues monitorID)
  | sensorChanged (m : Monitor) (sensorID : String) (attr : SensorAttr) :
      Step m (m.sensorAttrChanged sensorID attr).1
  | zoneChanged (m : Monitor) (zoneID : String) (val : Level) :
      Step m (m.zoneLevelChanged zoneID val).1
  | sweep (m : Monitor) (now : Nat) :
      Step m (m.sweepOnce now).1

/-- Finitely many transitions. -/
def Steps : Monitor → Monitor → Prop := Relation.ReflTransGen Step

/-- A state the program can be in: finitely many transitions away from some
`NewMonitor` call (with arbitrary initial cached values). -/
def Reachable (m : Monitor) : Prop :=
  ∃ sv zv, Steps (NewMonitor sv zv) m

/-- A state reachable from a `NewMonitor` call with no preloaded values. -/
def ReachableNil (m : Monitor) : Prop :=
  Steps (NewMonitor none none) m

/-! ## Association-list lemmas -/

theorem lookupA_insertA {α : Type} (m : List (String × α)) (k k' : String) (v : α) :
    lookupA (insertA m k v) k' = if k = k' then some v else lookupA m k' := by
  induction m with
  | nil => simp [insertA, lookupA]
  | cons p rest ih =>
    obtain ⟨pk, pv⟩ := p
    by_cases hpk : pk = k
    · subst hpk
      by_cases hk : pk = k' <;> simp [insertA, lookupA, hk]
    · by_cases hk : k = k' <;> simp [insertA, lookupA, hpk, hk, ih] <;>
        by_cases hpk2 : pk = k' <;> simp_all [lookupA]

theorem eraseA_cons {α : Type} (pk : String) (pv : α) (rest : List (String × α)) (k : String) :
    eraseA ((pk, pv) :: rest) k =
      if pk = k then eraseA rest k else (pk, pv) :: eraseA rest k := by
  by_cases h : pk = k <;> simp [eraseA, List.filter_cons, h]

theorem lookupA_eraseA {α : Type} (m : List (String × α)) (k k' : String) :
    lookupA (eraseA m k) k' = if k' = k then none else lookupA m k' := by
  induction m with
  | nil => simp [eraseA, lookupA]
  | cons p rest ih =>
    obtain ⟨pk, pv⟩ := p
    rw [eraseA_cons]
    by_cases hpk : pk = k
    · subst hpk
      rw [if_pos rfl, ih]
      by_cases hk : k' = pk
      · simp [hk]
      · have hne : ¬pk = k' := fun h => hk h.symm
        simp [hk, lookupA, hne]
    · rw [if_neg hpk]
      by_cases hpk2 : pk = k'
      · subst hpk2
        have hne : ¬pk = k := hpk
        simp [lookupA, hne]
      · simp [lookupA, hpk2, ih]

theorem lookupA_eraseAll {α : Type} (keys : List String) :
    ∀ (m : List (String × α)) (k : String),
      lookupA (eraseAll m keys) k = if k ∈ keys then none else lookupA m k := by
  induction keys with
  | nil => intro m k; simp [eraseAll]
  | cons x xs ih =>
    intro m k
    simp only [eraseAll, List.foldl_cons]
    rw [show List.foldl eraseA (eraseA m x) xs = eraseAll (eraseA m x) xs from rfl, ih]
    by_cases hk : k ∈ xs <;> by_cases hkx : k = x <;>
      simp [hk, hkx, lookupA_eraseA]

theorem mem_insertSet (s : List String) (x y : String) :
    y ∈ insertSet s x ↔ y ∈ s ∨ y = x := by
  unfold insertSet
  by_cases hx : x ∈ s
  · simp only [if_pos hx]
    constructor
    · exact Or.inl
    · rintro (h | rfl) <;> assumption
  · simp [if_neg hx]

theorem insertSet_idem (s : List String) (x : String) (hx : x ∈ s) :
    insertSet s x = s := by
  simp [insertSet, hx]

theorem self_mem_insertSet (s : List String) (x : String) : x ∈ insertSet s x := by
  simp [mem_insertSet]

/-! ## Injectivity of the decimal rendering `Itoa` -/

theorem itoaCore_eq_digits (fuel : Nat) :
    ∀ (n : Nat) (acc : List Char), n < fuel → n ≠ 0 →
      itoaCore fuel n acc = ((Nat.digits 10 n).map Nat.digitChar).reverse ++ acc := by
  induction fuel with
  | zero => intro n acc h; omega
  | succ fuel ih =>
    intro n acc hlt hne
    by_cases h10 : n < 10
    · simp only [itoaCore, if_pos h10]
      rw [Nat.digits_of_lt 10 n hne h10]
      simp
    · simp only [itoaCore, if_neg h10]
      have hdivne : n / 10 ≠ 0 := by
        have := Nat.div_pos (Nat.le_of_not_lt h10) (show 0 < 10 by norm_num)
        omega
      have hdivlt : n / 10 < fuel := by
        have h1 : n / 10 < n := Nat.div_lt_self (by omega) (by omega)
        omega
      rw [ih (n / 10) _ hdivlt hdivne,
        Nat.digits_def' (show (1:Nat) < 10 by norm_num) (show 0 < n by omega)]
      simp [List.append_assoc]

theorem Itoa_eq_of_ne_zero (n : Nat) (hn : n ≠ 0) :
    Itoa n = ⟨((Nat.digits 10 n).map Nat.digitChar).reverse⟩ := by
  unfold Itoa
  rw [itoaCore_eq_digits (n + 1) n [] (by omega) hn]
  simp

theorem digitChar_inj_lt :
    ∀ d1 < 10, ∀ d2 < 10, Nat.digitChar d1 = Nat.digitChar d2 → d1 = d2 := by
  decide

theorem map_digitChar_inj (xs : List Nat) : ∀ (ys : List Nat),
    (∀ x ∈ xs, x < 10) → (∀ y ∈ ys, y < 10) →
    xs.map Nat.digitChar = ys.map Nat.digitChar → xs = ys := by
  induction xs with
  | nil =>
    intro ys _ _ h
    cases ys with
    | nil => rfl
    | cons y ys => simp at h
  | cons x xs ih =>
    intro ys hx hy h
    cases ys with
    | nil => simp at h
    | cons y ys =>
      simp only [List.map_cons, List.cons.injEq] at h
      have hxy : x = y :=
        digitChar_inj_lt x (hx x (List.mem_cons_self x xs)) y
          (hy y (List.mem_cons_self y ys)) h.1
      subst hxy
      rw [ih ys (fun a ha => hx a (List.mem_cons_of_mem _ ha))
        (fun a ha => hy a (List.mem_cons_of_mem _ ha)) h.2]

theorem Itoa_injective : Function.Injective Itoa := by
  intro a b h
  have hbound : ∀ n : Nat, ∀ d ∈ Nat.digits 10 n, d < 10 := fun n d hd =>
    Nat.digits_lt_base (by norm_num) hd
  by_cases ha : a = 0 <;> by_cases hb : b = 0
  · omega
  · exfalso
    subst ha
    rw [Itoa_eq_of_ne_zero b hb] at h
    have hdata : (['0'] : List Char) = ((Nat.digits 10 b).map Nat.digitChar).reverse := by
      have := congrArg String.data h
      simpa [Itoa, itoaCore] using this
    have hmap : (Nat.digits 10 b).map Nat.digitChar = ['0'] := by
      have := congrArg List.reverse hdata
      simpa using this.symm
    have : Nat.digits 10 b = [0] := by
      apply map_digitChar_inj (Nat.digits 10 b) [0] (hbound b)
      · intro y hy; simp at hy; omega
      · simpa [Nat.digitChar] using hmap
    have hb0 : b = 0 := by
      have h1 := Nat.ofDigits_digits 10 b
      rw [this] at h1
      simpa [Nat.ofDigits] using h1.symm
    exact hb hb0
  · exfalso
    subst hb
    rw [Itoa_eq_of_ne_zero a ha] at h
    have hdata : ((Nat.digits 10 a).map Nat.digitChar).reverse = (['0'] : List Char) := by
      have := congrArg String.data h
      simpa [Itoa, itoaCore] using this
    have hmap : (Nat.digits 10 a).map Nat.digitChar = ['0'] := by
      have := congrArg List.reverse hdata
      simpa using this
    have : Nat.digits 10 a = [0] := by
      apply map_digitChar_inj (Nat.digits 10 a) [0] (hbound a)
      · intro y hy; simp at hy; omega
      · simpa [Nat.digitChar] using hmap
    have ha0 : a = 0 := by
      have h1 := Nat.ofDigits_digits 10 a
      rw [this] at h1
      simpa [Nat.ofDigits] using h1.symm
    exact ha ha0
  · rw [Itoa_eq_of_ne_zero a ha, Itoa_eq_of_ne_zero b hb] at h
    have hdata := congrArg String.data h
    simp only at hdata
    have hrev := List.reverse_injective hdata
    have := map_digitChar_inj (Nat.digits 10 a) (Nat.digits 10 b)
      (hbound a) (hbound b) hrev
    exact Nat.digits_inj_iff.mp this

/-! ## Characterization of `Refresh` -/

/-- The IDs of a group that `Refresh` answers from cache, paired with their
cached values: those with a cached value, provided `force` is off. -/
def cachedOf {α : Type} (values : List (String × α)) (force : Bool) (ids : List String) :
    List (String × α) :=
  ids.filterMap (fun id =>
    if force then none else (lookupA values id).map (fun v => (id, v)))

/-- The IDs of a group that `Refresh` sends to the bus as a report request:
those without a cached value, or all of them when `force` is on. -/
def uncachedOf {α : Type} (values : List (String × α)) (force : Bool) (ids : List String) :
    List String :=
  ids.filter (fun id => force || (lookupA values id).isNone)

theorem refreshStep_foldl {α : Type} (values : List (String × α)) (force : Bool)
    (l : List String) :
    ∀ (a : List (String × α)) (b : List String),
      l.foldl (refreshStep values force) (a, b)
        = (a ++ cachedOf values force l, b ++ uncachedOf values force l) := by
  induction l with
  | nil => intro a b; simp [cachedOf, uncachedOf]
  | cons x xs ih =>
    intro a b
    simp only [List.foldl_cons]
    cases hl : lookupA values x with
    | none =>
      rw [show refreshStep values force (a, b) x = (a, b ++ [x]) by
        simp [refreshStep, hl]]
      rw [ih]
      simp [cachedOf, uncachedOf, hl, List.filterMap_cons, List.filter_cons]
    | some v =>
      cases force with
      | false =>
        rw [show refreshStep values false (a, b) x = (a ++ [(x, v)], b) by
          simp [refreshStep, hl]]
        rw [ih]
        simp [cachedOf, uncachedOf, hl, List.filterMap_cons, List.filter_cons]
      | true =>
        rw [show refreshStep values true (a, b) x = (a, b ++ [x]) by
          simp [refreshStep, hl]]
        rw [ih]
        simp [cachedOf, uncachedOf, hl, List.filterMap_cons, List.filter_cons]

/-- `Refresh` on a registered group, in closed form: one `Update` carrying
exactly the cached subsets when one of them is non-empty, then one sensor
report request with exactly the uncached sensors when there are any, then
likewise for zones. -/
theorem Refresh_eq (m : Monitor) (monitorID : String) (force : Bool) (g : MonitorGroup)
    (h : lookupA m.groups monitorID = some g) :
    m.Refresh monitorID force =
      (if cachedOf m.sensorValues force g.Sensors ≠ [] ∨
          cachedOf m.zoneValues force g.Zones ≠ [] then
        [Effect.update g.Handler
          { MonitorID := monitorID
            Sensors := cachedOf m.sensorValues force g.Sensors
            Zones := cachedOf m.zoneValues force g.Zones }] else [])
      ++ (if uncachedOf m.sensorValues force g.Sensors ≠ [] then
            [Effect.sensorsReport (uncachedOf m.sensorValues force g.Sensors)] else [])
      ++ (if uncachedOf m.zoneValues force g.Zones ≠ [] then
            [Effect.zonesReport (uncachedOf m.zoneValues force g.Zones)] else []) := by
  unfold Monitor.Refresh
  rw [h]
  simp only [refreshStep_foldl, List.nil_append, List.length_pos]

/-- Membership in the cached component: exactly the listed IDs that have a
cached value while `force` is off. -/
theorem mem_cachedOf {α : Type} (values : List (String × α)) (force : Bool)
    (ids : List String) (id : String) (v : α) :
    (id, v) ∈ cachedOf values force ids ↔
      id ∈ ids ∧ force = false ∧ lookupA values id = some v := by
  unfold cachedOf
  rw [List.mem_filterMap]
  constructor
  · rintro ⟨a, ha, hf⟩
    cases force with
    | true => simp at hf
    | false =>
      simp only [if_neg Bool.false_ne_true, Option.map_eq_some'] at hf
      rcases hf with ⟨w, hw, heq⟩
      cases heq
      exact ⟨ha, rfl, hw⟩
  · rintro ⟨hid, hf, hv⟩
    subst hf
    exact ⟨id, hid, by simp [hv]⟩

/-- Membership in the uncached component: exactly the listed IDs that have
no cached value, or every listed ID when `force` is on. -/
theorem mem_uncachedOf {α : Type} (values : List (String × α)) (force : Bool)
    (ids : List String) (id : String) :
    id ∈ uncachedOf values force ids ↔
      id ∈ ids ∧ (force = true ∨ lookupA values id = none) := by
  unfold uncachedOf
  rw [List.mem_filter]
  cases force <;> simp [Option.isNone_iff_eq_none]

/-! ## Index lemmas -/

/-- The keys of an association list. -/
def keysOf {α : Type} (m : List (String × α)) : List String := m.map Prod.fst

theorem lookupA_eq_none_iff {α : Type} (m : List (String × α)) (k : String) :
    lookupA m k = none ↔ k ∉ keysOf m := by
  induction m with
  | nil => simp [lookupA, keysOf]
  | cons p rest ih =>
    obtain ⟨pk, pv⟩ := p
    by_cases h : pk = k
    · subst h
      simp [lookupA, keysOf]
    · have hne : ¬k = pk := fun hh => h hh.symm
      rw [show lookupA ((pk, pv) :: rest) k = lookupA rest k by simp [lookupA, h]]
      rw [ih]
      simp [keysOf, hne]

theorem keysOf_insertA {α : Type} (m : List (String × α)) (k : String) (v : α) :
    keysOf (insertA m k v) = if k ∈ keysOf m then keysOf m else keysOf m ++ [k] := by
  induction m with
  | nil => simp [insertA, keysOf]
  | cons p rest ih =>
    obtain ⟨pk, pv⟩ := p
    by_cases h : pk = k
    · subst h
      simp [insertA, keysOf]
    · have hne : ¬k = pk := fun hh => h hh.symm
      rw [show insertA ((pk, pv) :: rest) k v = (pk, pv) :: insertA rest k v by
        simp [insertA, h]]
      rw [show keysOf ((pk, pv) :: insertA rest k v)
          = pk :: keysOf (insertA rest k v) from rfl]
      rw [ih]
      by_cases hk : k ∈ keysOf rest
      · simp only [keysOf, List.map_cons] at hk ⊢
        rw [if_pos hk, if_pos (List.mem_cons_of_mem pk hk)]
      · simp only [keysOf, List.map_cons] at hk ⊢
        have h2 : k ∉ pk :: List.map Prod.fst rest := by
          simp only [List.mem_cons]
          rintro (rfl | hcon)
          · exact hne rfl
          · exact hk hcon
        rw [if_neg hk, if_neg h2]
        rfl

theorem nodup_keysOf_insertA {α : Type} (m : List (String × α)) (k : String) (v : α)
    (h : (keysOf m).Nodup) : (keysOf (insertA m k v)).Nodup := by
  rw [keysOf_insertA]
  by_cases hk : k ∈ keysOf m
  · simpa [hk] using h
  · simp only [if_neg hk]
    simpa [List.nodup_append] using ⟨h, hk⟩

theorem lookupA_addToIndex (monitorID : String) (ids : List String) :
    ∀ (idx : List (String × List String)) (eid : String),
      lookupA (addToIndex monitorID ids idx) eid =
        if eid ∈ ids then
          some (match lookupA idx eid with
                | some gs => insertSet gs monitorID
                | none => [monitorID])
        else lookupA idx eid := by
  induction ids with
  | nil => intro idx eid; simp [addToIndex]
  | cons x xs ih =>
    intro idx eid
    cases hx : lookupA idx x with
    | some gs =>
      have hunf : addToIndex monitorID (x :: xs) idx
          = addToIndex monitorID xs (insertA idx x (insertSet gs monitorID)) := by
        simp [addToIndex, hx]
      rw [hunf, ih]
      by_cases hex : eid = x
      · subst hex
        by_cases hmem : eid ∈ xs
        · simp [hmem, hx, lookupA_insertA,
            insertSet_idem _ _ (self_mem_insertSet gs monitorID)]
        · simp [hmem, hx, lookupA_insertA]
      · have hne : ¬x = eid := fun hh => hex hh.symm
        by_cases hmem : eid ∈ xs
        · simp [hmem, hex, lookupA_insertA, hne]
        · simp [hmem, hex, lookupA_insertA, hne]
    | none =>
      have hunf : addToIndex monitorID (x :: xs) idx
          = addToIndex monitorID xs (insertA idx x [monitorID]) := by
        simp [addToIndex, hx]
      rw [hunf, ih]
      by_cases hex : eid = x
      · subst hex
        by_cases hmem : eid ∈ xs
        · simp [hmem, hx, lookupA_insertA,
            insertSet_idem [monitorID] monitorID (by simp)]
        · simp [hmem, hx, lookupA_insertA]
      · have hne : ¬x = eid := fun hh => hex hh.symm
        by_cases hmem : eid ∈ xs
        · simp [hmem, hex, lookupA_insertA, hne]
        · simp [hmem, hex, lookupA_insertA, hne]

theorem nodup_keysOf_addToIndex (monitorID : String) (ids : List String) :
    ∀ (idx : List (String × List String)), (keysOf idx).Nodup →
      (keysOf (addToIndex monitorID ids idx)).Nodup := by
  induction ids with
  | nil => intro idx h; simpa [addToIndex] using h
  | cons x xs ih =>
    intro idx h
    cases hx : lookupA idx x with
    | some gs =>
      rw [show addToIndex monitorID (x :: xs) idx
          = addToIndex monitorID xs (insertA idx x (insertSet gs monitorID)) by
        simp [addToIndex, hx]]
      exact ih _ (nodup_keysOf_insertA _ _ _ h)
    | none =>
      rw [show addToIndex monitorID (x :: xs) idx
          = addToIndex monitorID xs (insertA idx x [monitorID]) by
        simp [addToIndex, hx]]
      exact ih _ (nodup_keysOf_insertA _ _ _ h)


theorem rgfi_cons_drop {α : Type} (gid eid : String) (gs : List String)
    (rest : List (String × List String)) (vals : List (String × α))
    (hmem : gid ∈ gs) (hemp : (gs.filter (fun x => x ≠ gid)).length = 0) :
    removeGroupFromIndex gid ((eid, gs) :: rest) vals
      = removeGroupFromIndex gid rest (eraseA vals eid) := by
  simp only [removeGroupFromIndex]
  rw [if_pos hmem, if_pos hemp]

theorem rgfi_cons_shrink {α : Type} (gid eid : String) (gs : List String)
    (rest : List (String × List String)) (vals : List (String × α))
    (hmem : gid ∈ gs) (hemp : ¬(gs.filter (fun x => x ≠ gid)).length = 0) :
    removeGroupFromIndex gid ((eid, gs) :: rest) vals
      = ((eid, gs.filter (fun x => x ≠ gid)) :: (removeGroupFromIndex gid rest vals).1,
         (removeGroupFromIndex gid rest vals).2) := by
  simp only [removeGroupFromIndex]
  rw [if_pos hmem, if_neg hemp]

theorem rgfi_cons_keep {α : Type} (gid eid : String) (gs : List String)
    (rest : List (String × List String)) (vals : List (String × α))
    (hmem : gid ∉ gs) :
    removeGroupFromIndex gid ((eid, gs) :: rest) vals
      = ((eid, gs) :: (removeGroupFromIndex gid rest vals).1,
         (removeGroupFromIndex gid rest vals).2) := by
  simp only [removeGroupFromIndex]
  rw [if_neg hmem]

theorem rgfi_fst_indep {α β : Type} (gid : String) :
    ∀ (idx : List (String × List String)) (vals : List (String × α))
      (vals2 : List (String × β)),
      (removeGroupFromIndex gid idx vals).1 = (removeGroupFromIndex gid idx vals2).1 := by
  intro idx
  induction idx with
  | nil => intro vals vals2; rfl
  | cons p rest ih =>
    intro vals vals2
    obtain ⟨eid, gs⟩ := p
    by_cases hmem : gid ∈ gs
    · by_cases hemp : (gs.filter (fun x => x ≠ gid)).length = 0
      · rw [rgfi_cons_drop gid eid gs rest vals hmem hemp,
          rgfi_cons_drop gid eid gs rest vals2 hmem hemp]
        exact ih _ _
      · rw [rgfi_cons_shrink gid eid gs rest vals hmem hemp,
          rgfi_cons_shrink gid eid gs rest vals2 hmem hemp]
        simp [ih vals vals2]
    · rw [rgfi_cons_keep gid eid gs rest vals hmem,
        rgfi_cons_keep gid eid gs rest vals2 hmem]
      simp [ih vals vals2]

theorem rgfi_keys_sublist {α : Type} (gid : String) :
    ∀ (idx : List (String × List String)) (vals : List (String × α)),
      List.Sublist (keysOf (removeGroupFromIndex gid idx vals).1) (keysOf idx) := by
  intro idx
  induction idx with
  | nil => intro vals; simp [removeGroupFromIndex, keysOf]
  | cons p rest ih =>
    intro vals
    obtain ⟨eid, gs⟩ := p
    by_cases hmem : gid ∈ gs
    · by_cases hemp : (gs.filter (fun x => x ≠ gid)).length = 0
      · rw [rgfi_cons_drop gid eid gs rest vals hmem hemp]
        exact (ih _).trans (List.sublist_cons_self _ _)
      · rw [rgfi_cons_shrink gid eid gs rest vals hmem hemp]
        exact List.Sublist.cons₂ _ (ih _)
    · rw [rgfi_cons_keep gid eid gs rest vals hmem]
      exact List.Sublist.cons₂ _ (ih _)

theorem rgfi_lookup_notmem {α : Type} (gid : String)
    (idx : List (String × List String)) (vals : List (String × α)) (eid : String)
    (hmem : eid ∉ keysOf idx) :
    lookupA (removeGroupFromIndex gid idx vals).1 eid = none := by
  rw [lookupA_eq_none_iff]
  intro hin
  exact hmem ((rgfi_keys_sublist gid idx vals).subset hin)

theorem rgfi_lookup_idx {α : Type} (gid : String) :
    ∀ (idx : List (String × List String)) (vals : List (String × α)) (eid : String),
      (keysOf idx).Nodup →
      lookupA (removeGroupFromIndex gid idx vals).1 eid =
        match lookupA idx eid with
        | none => none
        | some gs =>
            if gid ∈ gs then
              (if gs.filter (fun x => x ≠ gid) = [] then none
               else some (gs.filter (fun x => x ≠ gid)))
            else some gs := by
  intro idx
  induction idx with
  | nil => intro vals eid h; simp [removeGroupFromIndex, lookupA]
  | cons p rest ih =>
    intro vals eid hnd
    obtain ⟨k, gs⟩ := p
    have hndrest : (keysOf rest).Nodup := by
      simp only [keysOf, List.map_cons, List.nodup_cons] at hnd
      exact hnd.2
    have hknotin : k ∉ keysOf rest := by
      simp only [keysOf, List.map_cons, List.nodup_cons] at hnd
      exact hnd.1
    by_cases hek : k = eid
    · subst hek
      rw [show lookupA ((k, gs) :: rest) k = some gs by simp [lookupA]]
      show _ = if gid ∈ gs then
          (if gs.filter (fun x => x ≠ gid) = [] then none
           else some (gs.filter (fun x => x ≠ gid)))
        else some gs
      by_cases hmem : gid ∈ gs
      · by_cases hemp : (gs.filter (fun x => x ≠ gid)).length = 0
        · have hempl : gs.filter (fun x => x ≠ gid) = [] := List.length_eq_zero.mp hemp
          rw [rgfi_cons_drop gid k gs rest vals hmem hemp,
            rgfi_lookup_notmem gid rest _ k hknotin, if_pos hmem, if_pos hempl]
        · have hempl : gs.filter (fun x => x ≠ gid) ≠ [] :=
            fun hh => hemp (by rw [hh]; rfl)
          rw [rgfi_cons_shrink gid k gs rest vals hmem hemp, if_pos hmem, if_neg hempl]
          show lookupA ((k, gs.filter (fun x => x ≠ gid)) ::
            (removeGroupFromIndex gid rest vals).1) k = _
          simp [lookupA]
      · rw [rgfi_cons_keep gid k gs rest vals hmem, if_neg hmem]
        show lookupA ((k, gs) :: (removeGroupFromIndex gid rest vals).1) k = some gs
        simp [lookupA]
    · rw [show lookupA ((k, gs) :: rest) eid = lookupA rest eid by simp [lookupA, hek]]
      by_cases hmem : gid ∈ gs
      · by_cases hemp : (gs.filter (fun x => x ≠ gid)).length = 0
        · rw [rgfi_cons_drop gid k gs rest vals hmem hemp]
          exact ih _ eid hndrest
        · rw [rgfi_cons_shrink gid k gs rest vals hmem hemp]
          rw [show lookupA ((k, gs.filter (fun x => x ≠ gid)) ::
              (removeGroupFromIndex gid rest vals).1) eid
            = lookupA (removeGroupFromIndex gid rest vals).1 eid by simp [lookupA, hek]]
          exact ih _ eid hndrest
      · rw [rgfi_cons_keep gid k gs rest vals hmem]
        rw [show lookupA ((k, gs) :: (removeGroupFromIndex gid rest vals).1) eid
            = lookupA (removeGroupFromIndex gid rest vals).1 eid by simp [lookupA, hek]]
        exact ih _ eid hndrest

theorem rgfi_lookup_vals {α : Type} (gid : String) :
    ∀ (idx : List (String × List String)) (vals : List (String × α)) (eid : String),
      (keysOf idx).Nodup →
      lookupA (removeGroupFromIndex gid idx vals).2 eid =
        match lookupA idx eid with
        | none => lookupA vals eid
        | some gs =>
            if gid ∈ gs ∧ gs.filter (fun x => x ≠ gid) = [] then none
            else lookupA vals eid := by
  intro idx
  induction idx with
  | nil => intro vals eid h; simp [removeGroupFromIndex, lookupA]
  | cons p rest ih =>
    intro vals eid hnd
    obtain ⟨k, gs⟩ := p
    have hndrest : (keysOf rest).Nodup := by
      simp only [keysOf, List.map_cons, List.nodup_cons] at hnd
      exact hnd.2
    have hknotin : k ∉ keysOf rest := by
      simp only [keysOf, List.map_cons, List.nodup_cons] at hnd
      exact hnd.1
    have hrestnone : lookupA rest k = none := (lookupA_eq_none_iff rest k).mpr hknotin
    by_cases hek : k = eid
    · subst hek
      rw [show lookupA ((k, gs) :: rest) k = some gs by simp [lookupA]]
      show _ = if gid ∈ gs ∧ gs.filter (fun x => x ≠ gid) = [] then none
        else lookupA vals k
      by_cases hmem : gid ∈ gs
      · by_cases hemp : (gs.filter (fun x => x ≠ gid)).length = 0
        · have hempl : gs.filter (fun x => x ≠ gid) = [] := List.length_eq_zero.mp hemp
          rw [rgfi_cons_drop gid k gs rest vals hmem hemp,
            ih _ k hndrest, hrestnone, if_pos ⟨hmem, hempl⟩]
          show lookupA (eraseA vals k) k = none
          rw [lookupA_eraseA, if_pos rfl]
        · have hempl : gs.filter (fun x => x ≠ gid) ≠ [] :=
            fun hh => hemp (by rw [hh]; rfl)
          rw [rgfi_cons_shrink gid k gs rest vals hmem hemp]
          rw [show ((k, gs.filter (fun x => x ≠ gid)) ::
                (removeGroupFromIndex gid rest vals).1,
                (removeGroupFromIndex gid rest vals).2).2
              = (removeGroupFromIndex gid rest vals).2 from rfl]
          rw [ih _ k hndrest, hrestnone, if_neg (fun hc => hempl hc.2)]
      · rw [rgfi_cons_keep gid k gs rest vals hmem]
        rw [show ((k, gs) :: (removeGroupFromIndex gid rest vals).1,
              (removeGroupFromIndex gid rest vals).2).2
            = (removeGroupFromIndex gid rest vals).2 from rfl]
        rw [ih _ k hndrest, hrestnone, if_neg (fun hc => hmem hc.1)]
    · rw [show lookupA ((k, gs) :: rest) eid = lookupA rest eid by simp [lookupA, hek]]
      by_cases hmem : gid ∈ gs
      · by_cases hemp : (gs.filter (fun x => x ≠ gid)).length = 0
        · rw [rgfi_cons_drop gid k gs rest vals hmem hemp]
          rw [ih _ eid hndrest]
          have heq : lookupA (eraseA vals k) eid = lookupA vals eid := by
            have hne2 : ¬eid = k := fun hh => hek hh.symm
            rw [lookupA_eraseA, if_neg hne2]
          cases lookupA rest eid <;> simp [heq]
        · rw [rgfi_cons_shrink gid k gs rest vals hmem hemp]
          exact ih _ eid hndrest
      · rw [rgfi_cons_keep gid k gs rest vals hmem]
        exact ih _ eid hndrest

/-! ## Operation unfoldings -/

/-- The state produced by a successful `Subscribe` (used only to state
unfoldings; `Subscribe_eq_of_ne` proves it is what `Subscribe` builds). -/
def subscribeState (m : Monitor) (g : MonitorGroup) (now : Nat) : Monitor :=
  { m with
    nextID := m.nextID + 1
    groups := insertA m.groups (Itoa m.nextID)
      (Monitor.setTimeoutOnGroup { g with id := Itoa m.nextID } now)
    sensorToGroups := addToIndex (Itoa m.nextID) g.Sensors m.sensorToGroups
    zoneToGroups := addToIndex (Itoa m.nextID) g.Zones m.zoneToGroups }

theorem Subscribe_eq_of_ne (m : Monitor) (g : MonitorGroup) (refresh : Bool) (now : Nat)
    (hne : ¬(g.Sensors.length = 0 ∧ g.Zones.length = 0)) :
    m.Subscribe g refresh now =
      (Except.ok (Itoa m.nextID), subscribeState m g now,
       if refresh then (subscribeState m g now).Refresh (Itoa m.nextID) false else []) := by
  simp only [Monitor.Subscribe, if_neg hne, subscribeState]

theorem Subscribe_eq_of_empty (m : Monitor) (g : MonitorGroup) (refresh : Bool) (now : Nat)
    (hs : g.Sensors.length = 0) (hz : g.Zones.length = 0) :
    m.Subscribe g refresh now =
      (Except.error "no zones or sensors listed in the monitor group", m, []) := by
  simp only [Monitor.Subscribe, if_pos (And.intro hs hz)]

/-- The state produced by `Unsubscribe` on a live ID (used only to state
unfoldings). -/
def unsubscribeState (m : Monitor) (monitorID : String) : Monitor :=
  { m with
    groups := eraseA m.groups monitorID
    sensorToGroups := (removeGroupFromIndex monitorID m.sensorToGroups m.sensorValues).1
    sensorValues := (removeGroupFromIndex monitorID m.sensorToGroups m.sensorValues).2
    zoneToGroups := (removeGroupFromIndex monitorID m.zoneToGroups m.zoneValues).1
    zoneValues := (removeGroupFromIndex monitorID m.zoneToGroups m.zoneValues).2 }

theorem Unsubscribe_unknown (m : Monitor) (monitorID : String)
    (h : lookupA m.groups monitorID = none) :
    m.Unsubscribe monitorID = (m, []) := by
  simp only [Monitor.Unsubscribe, h]

theorem Unsubscribe_known (m : Monitor) (monitorID : String) (g : MonitorGroup)
    (h : lookupA m.groups monitorID = some g) :
    m.Unsubscribe monitorID = (unsubscribeState m monitorID, []) := by
  simp only [Monitor.Unsubscribe, h, unsubscribeState]

theorem SubscribeRenew_unknown (m : Monitor) (monitorID : String) (now : Nat)
    (h : lookupA m.groups monitorID = none) :
    m.SubscribeRenew monitorID now
      = (Except.error ("invalid monitor ID: " ++ monitorID), m) := by
  simp only [Monitor.SubscribeRenew, h]

theorem SubscribeRenew_known (m : Monitor) (monitorID : String) (now : Nat)
    (g : MonitorGroup) (h : lookupA m.groups monitorID = some g) :
    m.SubscribeRenew monitorID now
      = (Except.ok (),
         { m with groups := insertA m.groups monitorID (Monitor.setTimeoutOnGroup g now) }) := by
  simp only [Monitor.SubscribeRenew, h]

theorem InvalidateValues_unknown (m : Monitor) (monitorID : String)
    (h : lookupA m.groups monitorID = none) :
    m.InvalidateValues monitorID = m := by
  simp only [Monitor.InvalidateValues, h]

theorem InvalidateValues_known (m : Monitor) (monitorID : String) (g : MonitorGroup)
    (h : lookupA m.groups monitorID = some g) :
    m.InvalidateValues monitorID
      = { m with
          sensorValues := eraseAll m.sensorValues g.Sensors
          zoneValues := eraseAll m.zoneValues g.Zones } := by
  simp only [Monitor.InvalidateValues, h]

/-- The state component of `sensorAttrChanged` either is the input state or
records the new attribute of a monitored sensor. -/
theorem sensorAttrChanged_fst (m : Monitor) (sensorID : String) (attr : SensorAttr) :
    (m.sensorAttrChanged sensorID attr).1 = m ∨
      ((lookupA m.sensorToGroups sensorID).isSome ∧
       (m.sensorAttrChanged sensorID attr).1
         = { m with sensorValues := insertA m.sensorValues sensorID attr }) := by
  unfold Monitor.sensorAttrChanged
  cases h : lookupA m.sensorToGroups sensorID with
  | none => left; rfl
  | some gs =>
    cases hv : lookupA m.sensorValues sensorID with
    | none => right; exact ⟨by simp, by simp [hv]⟩
    | some cur =>
      by_cases he : cur.Value == attr.Value
      · left; simp [hv, he]
      · right
        refine ⟨by simp, ?_⟩
        simp only [hv]
        rw [if_neg (by simpa using he)]

theorem zoneLevelChanged_fst (m : Monitor) (zoneID : String) (val : Level) :
    (m.zoneLevelChanged zoneID val).1 = m ∨
      ((lookupA m.zoneToGroups zoneID).isSome ∧
       (m.zoneLevelChanged zoneID val).1
         = { m with zoneValues := insertA m.zoneValues zoneID val }) := by
  unfold Monitor.zoneLevelChanged
  cases h : lookupA m.zoneToGroups zoneID with
  | none => left; rfl
  | some gs =>
    cases hv : lookupA m.zoneValues zoneID with
    | none => right; exact ⟨by simp, by simp [hv]⟩
    | some cur =>
      by_cases he : cur == val
      · left; simp [hv, he]
      · right
        refine ⟨by simp, ?_⟩
        simp only [hv]
        rw [if_neg (by simpa using he)]

/-! ## State invariants -/

/-- Every live monitor ID is the decimal rendering of a number below the
counter. -/
def IdInv (m : Monitor) : Prop :=
  ∀ gid, (lookupA m.groups gid).isSome → ∃ k, k < m.nextID ∧ gid = Itoa k

/-- A reverse index is sound: every entry is non-empty and points only at
live groups that list the entity. -/
def IndexInvOn (idx : List (String × List String)) (groups : List (String × MonitorGroup))
    (proj : MonitorGroup → List String) : Prop :=
  ∀ eid gs, lookupA idx eid = some gs →
    gs ≠ [] ∧ ∀ gid ∈ gs, ∃ g, lookupA groups gid = some g ∧ eid ∈ proj g

/-- A value cache only holds entities present in the reverse index. -/
def CacheInvOn {α : Type} (vals : List (String × α))
    (idx : List (String × List String)) : Prop :=
  ∀ eid, (lookupA vals eid).isSome → (lookupA idx eid).isSome

/-- The structural invariant: sound counter, duplicate-free index keys, and
sound reverse indices.  It holds for every `NewMonitor` state, whatever the
preloaded caches. -/
def StructInv (m : Monitor) : Prop :=
  IdInv m ∧ (keysOf m.sensorToGroups).Nodup ∧ (keysOf m.zoneToGroups).Nodup
    ∧ IndexInvOn m.sensorToGroups m.groups (fun g => g.Sensors)
    ∧ IndexInvOn m.zoneToGroups m.groups (fun g => g.Zones)

/-- The cache invariant: both value caches only hold monitored entities. -/
def CacheInv (m : Monitor) : Prop :=
  CacheInvOn m.sensorValues m.sensorToGroups ∧ CacheInvOn m.zoneValues m.zoneToGroups

theorem structInv_newMonitor (sv : Option (List (String × SensorAttr)))
    (zv : Option (List (String × Level))) : StructInv (NewMonitor sv zv) := by
  refine ⟨?_, ?_, ?_, ?_, ?_⟩
  · intro gid h; simp [NewMonitor, lookupA] at h
  · simp [NewMonitor, keysOf]
  · simp [NewMonitor, keysOf]
  · intro eid gs h; simp [NewMonitor, lookupA] at h
  · intro eid gs h; simp [NewMonitor, lookupA] at h

theorem cacheInv_newMonitor_nil : CacheInv (NewMonitor none none) := by
  constructor <;> intro eid h <;> simp [NewMonitor, lookupA] at h

/-- A fresh counter value renders to an ID that is not live. -/
theorem fresh_id (m : Monitor) (hid : IdInv m) :
    lookupA m.groups (Itoa m.nextID) = none := by
  cases h : lookupA m.groups (Itoa m.nextID) with
  | none => rfl
  | some g =>
    obtain ⟨k, hk, hkeq⟩ := hid _ (by rw [h]; rfl)
    have : m.nextID = k := Itoa_injective hkeq
    omega

/-! ## Invariant preservation, generic pieces -/

theorem indexInvOn_addToIndex (idx : List (String × List String))
    (groups : List (String × MonitorGroup)) (proj : MonitorGroup → List String)
    (gidnew : String) (gNew : MonitorGroup) (ids : List String)
    (hix : IndexInvOn idx groups proj)
    (hfresh : lookupA groups gidnew = none)
    (hproj : ∀ eid ∈ ids, eid ∈ proj gNew) :
    IndexInvOn (addToIndex gidnew ids idx) (insertA groups gidnew gNew) proj := by
  intro eid gs hlook
  rw [lookupA_addToIndex] at hlook
  have hlive : ∀ gid gOld, lookupA groups gid = some gOld →
      lookupA (insertA groups gidnew gNew) gid = some gOld := by
    intro gid gOld hgOld
    rw [lookupA_insertA, if_neg ?_]
    · exact hgOld
    · intro hq
      rw [← hq, hfresh] at hgOld
      exact Option.noConfusion hgOld
  by_cases hmem : eid ∈ ids
  · rw [if_pos hmem] at hlook
    cases hold : lookupA idx eid with
    | some gs0 =>
      rw [hold] at hlook
      have hgs : insertSet gs0 gidnew = gs := Option.some.inj hlook
      subst hgs
      refine ⟨List.ne_nil_of_mem (self_mem_insertSet _ _), ?_⟩
      intro gid hgid
      rcases (mem_insertSet gs0 gidnew gid).mp hgid with hin | rfl
      · obtain ⟨gOld, hgOld, hp⟩ := (hix eid gs0 hold).2 gid hin
        exact ⟨gOld, hlive gid gOld hgOld, hp⟩
      · refine ⟨gNew, ?_, hproj eid hmem⟩
        rw [lookupA_insertA, if_pos rfl]
    | none =>
      rw [hold] at hlook
      have hgs : [gidnew] = gs := Option.some.inj hlook
      subst hgs
      refine ⟨by simp, ?_⟩
      intro gid hgid
      rw [List.mem_singleton] at hgid
      subst hgid
      refine ⟨gNew, ?_, hproj eid hmem⟩
      rw [lookupA_insertA, if_pos rfl]
  · rw [if_neg hmem] at hlook
    obtain ⟨hne2, hall⟩ := hix eid gs hlook
    refine ⟨hne2, ?_⟩
    intro gid hgid
    obtain ⟨gOld, hgOld, hp⟩ := hall gid hgid
    exact ⟨gOld, hlive gid gOld hgOld, hp⟩

theorem cacheInvOn_addToIndex {α : Type} (vals : List (String × α))
    (idx : List (String × List String)) (gid : String) (ids : List String)
    (hc : CacheInvOn vals idx) : CacheInvOn vals (addToIndex gid ids idx) := by
  intro eid hsome
  rw [lookupA_addToIndex]
  by_cases hmem : eid ∈ ids
  · rw [if_pos hmem]; rfl
  · rw [if_neg hmem]
    exact hc eid hsome

theorem indexInvOn_rgfi {α : Type} (idx : List (String × List String))
    (groups : List (String × MonitorGroup)) (proj : MonitorGroup → List String)
    (gid : String) (vals : List (String × α))
    (hnd : (keysOf idx).Nodup)
    (hix : IndexInvOn idx groups proj) :
    IndexInvOn (removeGroupFromIndex gid idx vals).1 (eraseA groups gid) proj := by
  intro eid gs hlook
  rw [rgfi_lookup_idx gid idx vals eid hnd] at hlook
  cases hold : lookupA idx eid with
  | none =>
    rw [hold] at hlook
    exact Option.noConfusion hlook
  | some gs0 =>
    rw [hold] at hlook
    have hlook2 : (if gid ∈ gs0 then
        (if gs0.filter (fun x => x ≠ gid) = [] then none
         else some (gs0.filter (fun x => x ≠ gid)))
      else some gs0) = some gs := hlook
    obtain ⟨hne0, hall⟩ := hix eid gs0 hold
    by_cases hmem : gid ∈ gs0
    · rw [if_pos hmem] at hlook2
      by_cases hemp : gs0.filter (fun x => x ≠ gid) = []
      · rw [if_pos hemp] at hlook2
        exact Option.noConfusion hlook2
      · rw [if_neg hemp] at hlook2
        have hgs : gs0.filter (fun x => x ≠ gid) = gs := Option.some.inj hlook2
        subst hgs
        refine ⟨hemp, ?_⟩
        intro gid2 hgid2
        rw [List.mem_filter] at hgid2
        have hne2 : ¬gid2 = gid := by simpa using hgid2.2
        obtain ⟨gOld, hgOld, hp⟩ := hall gid2 hgid2.1
        refine ⟨gOld, ?_, hp⟩
        rw [lookupA_eraseA, if_neg hne2]
        exact hgOld
    · rw [if_neg hmem] at hlook2
      have hgs : gs0 = gs := Option.some.inj hlook2
      subst hgs
      refine ⟨hne0, ?_⟩
      intro gid2 hgid2
      have hne2 : ¬gid2 = gid := fun hq => hmem (hq ▸ hgid2)
      obtain ⟨gOld, hgOld, hp⟩ := hall gid2 hgid2
      refine ⟨gOld, ?_, hp⟩
      rw [lookupA_eraseA, if_neg hne2]
      exact hgOld

theorem cacheInvOn_rgfi {α : Type} (gid : String) (idx : List (String × List String))
    (vals : List (String × α)) (hnd : (keysOf idx).Nodup) (hc : CacheInvOn vals idx) :
    CacheInvOn (removeGroupFromIndex gid idx vals).2
      (removeGroupFromIndex gid idx vals).1 := by
  intro eid hsome
  rw [rgfi_lookup_vals gid idx vals eid hnd] at hsome
  rw [rgfi_lookup_idx gid idx vals eid hnd]
  cases hold : lookupA idx eid with
  | none =>
    rw [hold] at hsome
    have hsome2 : (lookupA vals eid).isSome := hsome
    have := hc eid hsome2
    rw [hold] at this
    simp at this
  | some gs0 =>
    rw [hold] at hsome
    have hsome2 : (if gid ∈ gs0 ∧ gs0.filter (fun x => x ≠ gid) = [] then none
        else lookupA vals eid).isSome := hsome
    show (if gid ∈ gs0 then
        (if gs0.filter (fun x => x ≠ gid) = [] then none
         else some (gs0.filter (fun x => x ≠ gid)))
      else some gs0).isSome
    by_cases hcond : gid ∈ gs0 ∧ gs0.filter (fun x => x ≠ gid) = []
    · rw [if_pos hcond] at hsome2
      simp at hsome2
    · by_cases hmem : gid ∈ gs0
      · have hemp : ¬gs0.filter (fun x => x ≠ gid) = [] := fun hq => hcond ⟨hmem, hq⟩
        rw [if_pos hmem, if_neg hemp]
        rfl
      · rw [if_neg hmem]
        rfl

theorem indexInvOn_update_group (idx : List (String × List String))
    (groups : List (String × MonitorGroup)) (proj : MonitorGroup → List String)
    (mid : String) (g g2 : MonitorGroup)
    (hg : lookupA groups mid = some g) (hproj : proj g2 = proj g)
    (hix : IndexInvOn idx groups proj) :
    IndexInvOn idx (insertA groups mid g2) proj := by
  intro eid gs hlook
  obtain ⟨hne0, hall⟩ := hix eid gs hlook
  refine ⟨hne0, ?_⟩
  intro gid hgid
  obtain ⟨gOld, hgOld, hp⟩ := hall gid hgid
  by_cases hq : mid = gid
  · subst hq
    rw [hg] at hgOld
    have hge : g = gOld := Option.some.inj hgOld
    subst hge
    refine ⟨g2, ?_, ?_⟩
    · rw [lookupA_insertA, if_pos rfl]
    · rw [hproj]; exact hp
  · refine ⟨gOld, ?_, hp⟩
    rw [lookupA_insertA, if_neg hq]
    exact hgOld

/-! ## Invariant preservation per operation -/

theorem structInv_subscribeState (m : Monitor) (g : MonitorGroup) (now : Nat)
    (hs : StructInv m) : StructInv (subscribeState m g now) := by
  obtain ⟨hid, hnds, hndz, hixs, hixz⟩ := hs
  have hfresh := fresh_id m hid
  refine ⟨?_, ?_, ?_, ?_, ?_⟩
  · intro gid hsome
    have hsome2 : (lookupA (insertA m.groups (Itoa m.nextID)
        (Monitor.setTimeoutOnGroup { g with id := Itoa m.nextID } now)) gid).isSome := hsome
    rw [lookupA_insertA] at hsome2
    show ∃ k, k < m.nextID + 1 ∧ gid = Itoa k
    by_cases hq : Itoa m.nextID = gid
    · exact ⟨m.nextID, by omega, hq.symm⟩
    · rw [if_neg hq] at hsome2
      obtain ⟨k, hk, hkeq⟩ := hid gid hsome2
      exact ⟨k, by omega, hkeq⟩
  · exact nodup_keysOf_addToIndex _ _ _ hnds
  · exact nodup_keysOf_addToIndex _ _ _ hndz
  · exact indexInvOn_addToIndex _ _ _ _ _ _ hixs hfresh (fun eid he => he)
  · exact indexInvOn_addToIndex _ _ _ _ _ _ hixz hfresh (fun eid he => he)

theorem structInv_subscribe (m : Monitor) (g : MonitorGroup) (refresh : Bool) (now : Nat)
    (hs : StructInv m) : StructInv (m.Subscribe g refresh now).2.1 := by
  by_cases hcnd : g.Sensors.length = 0 ∧ g.Zones.length = 0
  · rw [Subscribe_eq_of_empty m g refresh now hcnd.1 hcnd.2]
    exact hs
  · rw [Subscribe_eq_of_ne m g refresh now hcnd]
    exact structInv_subscribeState m g now hs

theorem structInv_unsubscribe (m : Monitor) (mid : String) (hs : StructInv m) :
    StructInv (m.Unsubscribe mid).1 := by
  obtain ⟨hid, hnds, hndz, hixs, hixz⟩ := hs
  cases h : lookupA m.groups mid with
  | none =>
    rw [Unsubscribe_unknown m mid h]
    exact ⟨hid, hnds, hndz, hixs, hixz⟩
  | some g =>
    rw [Unsubscribe_known m mid g h]
    refine ⟨?_, ?_, ?_, ?_, ?_⟩
    · intro gid hsome
      have hsome2 : (lookupA (eraseA m.groups mid) gid).isSome := hsome
      rw [lookupA_eraseA] at hsome2
      by_cases hq : gid = mid
      · rw [if_pos hq] at hsome2; simp at hsome2
      · rw [if_neg hq] at hsome2
        exact hid gid hsome2
    · exact List.Nodup.sublist (rgfi_keys_sublist mid m.sensorToGroups m.sensorValues) hnds
    · exact List.Nodup.sublist (rgfi_keys_sublist mid m.zoneToGroups m.zoneValues) hndz
    · exact indexInvOn_rgfi _ _ _ _ _ hnds hixs
    · exact indexInvOn_rgfi _ _ _ _ _ hndz hixz

theorem structInv_subscribeRenew (m : Monitor) (mid : String) (now : Nat)
    (hs : StructInv m) : StructInv (m.SubscribeRenew mid now).2 := by
  obtain ⟨hid, hnds, hndz, hixs, hixz⟩ := hs
  cases h : lookupA m.groups mid with
  | none =>
    rw [SubscribeRenew_unknown m mid now h]
    exact ⟨hid, hnds, hndz, hixs, hixz⟩
  | some g =>
    rw [SubscribeRenew_known m mid now g h]
    refine ⟨?_, hnds, hndz, ?_, ?_⟩
    · intro gid hsome
      have hsome2 : (lookupA (insertA m.groups mid
          (Monitor.setTimeoutOnGroup g now)) gid).isSome := hsome
      rw [lookupA_insertA] at hsome2
      by_cases hq : mid = gid
      · subst hq
        exact hid mid (by rw [h]; rfl)
      · rw [if_neg hq] at hsome2
        exact hid gid hsome2
    · exact indexInvOn_update_group _ _ _ mid g _ h rfl hixs
    · exact indexInvOn_update_group _ _ _ mid g _ h rfl hixz

theorem structInv_invalidate (m : Monitor) (mid : String) (hs : StructInv m) :
    StructInv (m.InvalidateValues mid) := by
  cases h : lookupA m.groups mid with
  | none => rw [InvalidateValues_unknown m mid h]; exact hs
  | some g => rw [InvalidateValues_known m mid g h]; exact hs

theorem structInv_sensorChanged (m : Monitor) (sid : String) (attr : SensorAttr)
    (hs : StructInv m) : StructInv (m.sensorAttrChanged sid attr).1 := by
  rcases sensorAttrChanged_fst m sid attr with h | ⟨_, h⟩ <;> rw [h] <;> exact hs

theorem structInv_zoneChanged (m : Monitor) (zid : String) (val : Level)
    (hs : StructInv m) : StructInv (m.zoneLevelChanged zid val).1 := by
  rcases zoneLevelChanged_fst m zid val with h | ⟨_, h⟩ <;> rw [h] <;> exact hs

theorem sweepOnce_preserve (P : Monitor → Prop)
    (hstep : ∀ (m2 : Monitor) (mid : String), P m2 → P (m2.Unsubscribe mid).1) :
    ∀ (l : List MonitorGroup) (m : Monitor) (effs : List Effect), P m →
      P ((l.foldl (fun acc group =>
          ((acc.1.Unsubscribe group.id).1,
           acc.2 ++ (acc.1.Unsubscribe group.id).2
             ++ [Effect.expired group.Handler group.id])) (m, effs)).1) := by
  intro l
  induction l with
  | nil => intro m effs h; exact h
  | cons x xs ih =>
    intro m effs h
    simp only [List.foldl_cons]
    exact ih _ _ (hstep m x.id h)

theorem structInv_sweepOnce (m : Monitor) (now : Nat) (hs : StructInv m) :
    StructInv (m.sweepOnce now).1 := by
  unfold Monitor.sweepOnce
  exact sweepOnce_preserve StructInv
    (fun m2 mid h => structInv_unsubscribe m2 mid h) _ m [] hs

theorem cacheInvOn_eraseAll {α : Type} (vals : List (String × α))
    (idx : List (String × List String)) (keys : List String)
    (hc : CacheInvOn vals idx) : CacheInvOn (eraseAll vals keys) idx := by
  intro eid hsome
  rw [lookupA_eraseAll] at hsome
  by_cases hq : eid ∈ keys
  · rw [if_pos hq] at hsome; simp at hsome
  · rw [if_neg hq] at hsome; exact hc eid hsome

theorem cacheInv_subscribe (m : Monitor) (g : MonitorGroup) (refresh : Bool) (now : Nat)
    (hc : CacheInv m) : CacheInv (m.Subscribe g refresh now).2.1 := by
  by_cases hcnd : g.Sensors.length = 0 ∧ g.Zones.length = 0
  · rw [Subscribe_eq_of_empty m g refresh now hcnd.1 hcnd.2]
    exact hc
  · rw [Subscribe_eq_of_ne m g refresh now hcnd]
    exact ⟨cacheInvOn_addToIndex _ _ _ _ hc.1, cacheInvOn_addToIndex _ _ _ _ hc.2⟩

theorem cacheInv_unsubscribe (m : Monitor) (mid : String)
    (hs : StructInv m) (hc : CacheInv m) : CacheInv (m.Unsubscribe mid).1 := by
  cases h : lookupA m.groups mid with
  | none => rw [Unsubscribe_unknown m mid h]; exact hc
  | some g =>
    rw [Unsubscribe_known m mid g h]
    exact ⟨cacheInvOn_rgfi mid _ _ hs.2.1 hc.1, cacheInvOn_rgfi mid _ _ hs.2.2.1 hc.2⟩

theorem cacheInv_subscribeRenew (m : Monitor) (mid : String) (now : Nat)
    (hc : CacheInv m) : CacheInv (m.SubscribeRenew mid now).2 := by
  cases h : lookupA m.groups mid with
  | none => rw [SubscribeRenew_unknown m mid now h]; exact hc
  | some g => rw [SubscribeRenew_known m mid now g h]; exact hc

theorem cacheInv_invalidate (m : Monitor) (mid : String) (hc : CacheInv m) :
    CacheInv (m.InvalidateValues mid) := by
  cases h : lookupA m.groups mid with
  | none => rw [InvalidateValues_unknown m mid h]; exact hc
  | some g =>
    rw [InvalidateValues_known m mid g h]
    exact ⟨cacheInvOn_eraseAll _ _ _ hc.1, cacheInvOn_eraseAll _ _ _ hc.2⟩

theorem cacheInv_sensorChanged (m : Monitor) (sid : String) (attr : SensorAttr)
    (hc : CacheInv m) : CacheInv (m.sensorAttrChanged sid attr).1 := by
  rcases sensorAttrChanged_fst m sid attr with h | ⟨hsome, h⟩
  · rw [h]; exact hc
  · rw [h]
    refine ⟨?_, hc.2⟩
    intro eid he
    have he2 : (lookupA (insertA m.sensorValues sid attr) eid).isSome := he
    rw [lookupA_insertA] at he2
    by_cases hq : sid = eid
    · subst hq; exact hsome
    · rw [if_neg hq] at he2
      exact hc.1 eid he2

theorem cacheInv_zoneChanged (m : Monitor) (zid : String) (val : Level)
    (hc : CacheInv m) : CacheInv (m.zoneLevelChanged zid val).1 := by
  rcases zoneLevelChanged_fst m zid val with h | ⟨hsome, h⟩
  · rw [h]; exact hc
  · rw [h]
    refine ⟨hc.1, ?_⟩
    intro eid he
    have he2 : (lookupA (insertA m.zoneValues zid val) eid).isSome := he
    rw [lookupA_insertA] at he2
    by_cases hq : zid = eid
    · subst hq; exact hsome
    · rw [if_neg hq] at he2
      exact hc.2 eid he2

theorem good_sweepOnce (m : Monitor) (now : Nat)
    (hg : StructInv m ∧ CacheInv m) : StructInv (m.sweepOnce now).1 ∧ CacheInv (m.sweepOnce now).1 := by
  unfold Monitor.sweepOnce
  exact sweepOnce_preserve (fun x => StructInv x ∧ CacheInv x)
    (fun m2 mid h => ⟨structInv_unsubscribe m2 mid h.1,
      cacheInv_unsubscribe m2 mid h.1 h.2⟩) _ m [] hg

theorem step_structInv {m m2 : Monitor} (h : Step m m2) (hs : StructInv m) :
    StructInv m2 := by
  cases h with
  | subscribe g refresh now => exact structInv_subscribe _ g refresh now hs
  | unsubscribe mid => exact structInv_unsubscribe _ mid hs
  | subscribeRenew mid now => exact structInv_subscribeRenew _ mid now hs
  | invalidateValues mid => exact structInv_invalidate _ mid hs
  | sensorChanged sid attr => exact structInv_sensorChanged _ sid attr hs
  | zoneChanged zid val => exact structInv_zoneChanged _ zid val hs
  | sweep now => exact structInv_sweepOnce _ now hs

theorem step_good {m m2 : Monitor} (h : Step m m2)
    (hg : StructInv m ∧ CacheInv m) : StructInv m2 ∧ CacheInv m2 := by
  cases h with
  | subscribe g refresh now =>
    exact ⟨structInv_subscribe _ g refresh now hg.1, cacheInv_subscribe _ g refresh now hg.2⟩
  | unsubscribe mid =>
    exact ⟨structInv_unsubscribe _ mid hg.1, cacheInv_unsubscribe _ mid hg.1 hg.2⟩
  | subscribeRenew mid now =>
    exact ⟨structInv_subscribeRenew _ mid now hg.1, cacheInv_subscribeRenew _ mid now hg.2⟩
  | invalidateValues mid =>
    exact ⟨structInv_invalidate _ mid hg.1, cacheInv_invalidate _ mid hg.2⟩
  | sensorChanged sid attr =>
    exact ⟨structInv_sensorChanged _ sid attr hg.1, cacheInv_sensorChanged _ sid attr hg.2⟩
  | zoneChanged zid val =>
    exact ⟨structInv_zoneChanged _ zid val hg.1, cacheInv_zoneChanged _ zid val hg.2⟩
  | sweep now => exact good_sweepOnce _ now hg

theorem steps_structInv {m m2 : Monitor} (h : Steps m m2) (hs : StructInv m) :
    StructInv m2 := by
  induction h with
  | refl => exact hs
  | tail _ hstep ih => exact step_structInv hstep ih

theorem steps_good {m m2 : Monitor} (h : Steps m m2)
    (hg : StructInv m ∧ CacheInv m) : StructInv m2 ∧ CacheInv m2 := by
  induction h with
  | refl => exact hg
  | tail _ hstep ih => exact step_good hstep ih

theorem reachable_structInv {m : Monitor} (h : Reachable m) : StructInv m := by
  obtain ⟨sv, zv, hsteps⟩ := h
  exact steps_structInv hsteps (structInv_newMonitor sv zv)

theorem reachableNil_good {m : Monitor} (h : ReachableNil m) :
    StructInv m ∧ CacheInv m :=
  steps_good h ⟨structInv_newMonitor none none, cacheInv_newMonitor_nil⟩

/-! ## The ID counter only grows -/

theorem unsubscribe_nextID (m : Monitor) (mid : String) :
    (m.Unsubscribe mid).1.nextID = m.nextID := by
  cases h : lookupA m.groups mid with
  | none => rw [Unsubscribe_unknown m mid h]
  | some g => rw [Unsubscribe_known m mid g h]; rfl

theorem step_nextID_mono {m m2 : Monitor} (h : Step m m2) : m.nextID ≤ m2.nextID := by
  cases h with
  | subscribe g refresh now =>
    by_cases hcnd : g.Sensors.length = 0 ∧ g.Zones.length = 0
    · rw [Subscribe_eq_of_empty m g refresh now hcnd.1 hcnd.2]
    · rw [Subscribe_eq_of_ne m g refresh now hcnd]
      show m.nextID ≤ m.nextID + 1
      omega
  | unsubscribe mid => rw [unsubscribe_nextID]
  | subscribeRenew mid now =>
    cases h : lookupA m.groups mid with
    | none => rw [SubscribeRenew_unknown m mid now h]
    | some g => rw [SubscribeRenew_known m mid now g h]
  | invalidateValues mid =>
    cases h : lookupA m.groups mid with
    | none => rw [InvalidateValues_unknown m mid h]
    | some g => rw [InvalidateValues_known m mid g h]
  | sensorChanged sid attr =>
    rcases sensorAttrChanged_fst m sid attr with h | ⟨_, h⟩ <;> rw [h]
  | zoneChanged zid val =>
    rcases zoneLevelChanged_fst m zid val with h | ⟨_, h⟩ <;> rw [h]
  | sweep now =>
    show m.nextID ≤ (m.sweepOnce now).1.nextID
    unfold Monitor.sweepOnce
    exact sweepOnce_preserve (fun x => m.nextID ≤ x.nextID)
      (fun m2 mid h => by
        show m.nextID ≤ (m2.Unsubscribe mid).1.nextID
        rw [unsubscribe_nextID]
        exact h) _ m [] (Nat.le_refl _)

theorem steps_nextID_mono {m m2 : Monitor} (h : Steps m m2) : m.nextID ≤ m2.nextID := by
  induction h with
  | refl => exact Nat.le_refl _
  | tail _ hstep ih => exact ih.trans (step_nextID_mono hstep)

theorem Subscribe_ok_elim (m : Monitor) (g : MonitorGroup) (refresh : Bool) (now : Nat)
    (id2 : String) (m2 : Monitor) (effs : List Effect)
    (h : m.Subscribe g refresh now = (Except.ok id2, m2, effs)) :
    id2 = Itoa m.nextID ∧ m2 = subscribeState m g now := by
  by_cases hcnd : g.Sensors.length = 0 ∧ g.Zones.length = 0
  · rw [Subscribe_eq_of_empty m g refresh now hcnd.1 hcnd.2] at h
    exact absurd (congrArg Prod.fst h) (by simp)
  · rw [Subscribe_eq_of_ne m g refresh now hcnd] at h
    have h1 := congrArg Prod.fst h
    have h2 := congrArg (fun p => p.2.1) h
    simp only at h1 h2
    exact ⟨(Except.ok.inj h1).symm, h2.symm⟩

/-! ## The locking discipline, as access traces

Each public operation and each internal handler of `Monitor` (monitor.go)
is transcribed as the ordered list of its accesses to the five shared
structures, each tagged with the lock state the source holds at that
access.  This is a syntactic model: one entry per map-access site, in
source order, with loops collapsed to their per-map access. -/

/-- The five shared structures guarded by `Monitor.mutex`. -/
inductive SharedField where
  | groupsField
  | sensorToGroupsField
  | zoneToGroupsField
  | sensorValuesField
  | zoneValuesField
deriving DecidableEq, Repr

/-- The lock state at an access site: no lock, read lock (`RLock`), or
write lock (`Lock`). -/
inductive LockMode where
  | unlocked
  | readLocked
  | writeLocked
deriving DecidableEq, Repr

/-- One access to a shared structure under a given lock state. -/
structure FieldAccess where
  field : SharedField
  mode : LockMode
deriving DecidableEq, Repr

/-- `Refresh` (monitor.go lines 91-126): group lookup and both cache scans
under `RLock`. -/
def refreshAccesses : List FieldAccess :=
  [⟨.groupsField, .readLocked⟩, ⟨.sensorValuesField, .readLocked⟩,
   ⟨.zoneValuesField, .readLocked⟩]

/-- `InvalidateValues` (monitor.go lines 149-164): group lookup under
`RLock`, both cache deletions under `Lock`. -/
def invalidateValuesAccesses : List FieldAccess :=
  [⟨.groupsField, .readLocked⟩, ⟨.sensorValuesField, .writeLocked⟩,
   ⟨.zoneValuesField, .writeLocked⟩]

/-- `Group` (monitor.go lines 169-171): one lookup under `RLock`. -/
def groupAccesses : List FieldAccess :=
  [⟨.groupsField, .readLocked⟩]

/-- `SubscribeRenew` (monitor.go lines 178-188): lookup under `RLock`, the
expiry write on the stored group under `Lock`. -/
def subscribeRenewAccesses : List FieldAccess :=
  [⟨.groupsField, .readLocked⟩, ⟨.groupsField, .writeLocked⟩]

/-- `Subscribe` (monitor.go lines 204-233): group insertion and both
reverse-index registrations under `Lock`. -/
def subscribeAccesses : List FieldAccess :=
  [⟨.groupsField, .writeLocked⟩, ⟨.sensorToGroupsField, .writeLocked⟩,
   ⟨.zoneToGroupsField, .writeLocked⟩]

/-- `Unsubscribe` (monitor.go lines 243-271): the existence check on the
group table at line 244 runs BEFORE `m.mutex.Lock()` at line 248 and is
therefore unprotected; everything after it is under `Lock`. -/
def unsubscribeAccesses : List FieldAccess :=
  [⟨.groupsField, .unlocked⟩,
   ⟨.groupsField, .writeLocked⟩, ⟨.sensorToGroupsField, .writeLocked⟩,
   ⟨.sensorValuesField, .writeLocked⟩, ⟨.zoneToGroupsField, .writeLocked⟩,
   ⟨.zoneValuesField, .writeLocked⟩]

/-- `sensorAttrChanged` (monitor.go lines 274-310). -/
def sensorAttrChangedAccesses : List FieldAccess :=
  [⟨.sensorToGroupsField, .readLocked⟩, ⟨.sensorValuesField, .readLocked⟩,
   ⟨.sensorValuesField, .writeLocked⟩, ⟨.groupsField, .readLocked⟩]

/-- `zoneLevelChanged` (monitor.go lines 312-350). -/
def zoneLevelChangedAccesses : List FieldAccess :=
  [⟨.zoneToGroupsField, .readLocked⟩, ⟨.zoneValuesField, .readLocked⟩,
   ⟨.zoneValuesField, .writeLocked⟩, ⟨.groupsField, .readLocked⟩]

/-- `handleTimeouts` (monitor.go lines 354-376): the expiry scan under
`RLock`, then the `Unsubscribe` calls with their traces. -/
def handleTimeoutsAccesses : List FieldAccess :=
  ⟨.groupsField, .readLocked⟩ :: unsubscribeAccesses

/-- Every execution context of the Monitor with its access trace. -/
def monitorAccessTable : List (String × List FieldAccess) :=
  [("Refresh", refreshAccesses),
   ("InvalidateValues", invalidateValuesAccesses),
   ("Group", groupAccesses),
   ("SubscribeRenew", subscribeRenewAccesses),
   ("Subscribe", subscribeAccesses),
   ("Unsubscribe", unsubscribeAccesses),
   ("sensorAttrChanged", sensorAttrChangedAccesses),
   ("zoneLevelChanged", zoneLevelChangedAccesses),
   ("handleTimeouts", handleTimeoutsAccesses)]

/-! ## Small helpers for the claim statements -/

/-- The delegate reference of a live group (0 for an unknown ID; on a
reachable state fan-out only meets live IDs). -/
def handlerOf (m : Monitor) (gid : String) : Nat :=
  match lookupA m.groups gid with
  | some g => g.Handler
  | none => 0

theorem filter_all_true {α : Type} (p : α → Bool) :
    ∀ l : List α, (∀ a ∈ l, p a = true) → l.filter p = l := by
  intro l
  induction l with
  | nil => intro h; rfl
  | cons x xs ih =>
    intro h
    rw [List.filter_cons, if_pos (h x (List.mem_cons_self x xs))]
    rw [ih (fun a ha => h a (List.mem_cons_of_mem _ ha))]

theorem exists_mem_of_ne_nil2 {α : Type} (l : List α) (h : l ≠ []) : ∃ x, x ∈ l := by
  cases l with
  | nil => exact absurd rfl h
  | cons x xs => exact ⟨x, List.mem_cons_self x xs⟩

/-! ## The claims -/

/-- C1: for a registered group, `Refresh(monitorID, force)` sends every
listed ID with a cached value (and `force` off) into the one immediate
`ChangeBatch`, and every other listed ID into the fetch-request set; the
delegate gets exactly one `Update` with exactly the cached subsets (none
when both are empty), and at most one sensor report request and at most one
zone report request are published, each carrying exactly the uncached
subset of its kind. -/
theorem claim_C1_refresh_classification (m : Monitor) (monitorID : String)
    (force : Bool) (g : MonitorGroup)
    (h : lookupA m.groups monitorID = some g) :
    (m.Refresh monitorID force =
      (if cachedOf m.sensorValues force g.Sensors ≠ [] ∨
          cachedOf m.zoneValues force g.Zones ≠ [] then
        [Effect.update g.Handler
          { MonitorID := monitorID
            Sensors := cachedOf m.sensorValues force g.Sensors
            Zones := cachedOf m.zoneValues force g.Zones }] else [])
      ++ (if uncachedOf m.sensorValues force g.Sensors ≠ [] then
            [Effect.sensorsReport (uncachedOf m.sensorValues force g.Sensors)] else [])
      ++ (if uncachedOf m.zoneValues force g.Zones ≠ [] then
            [Effect.zonesReport (uncachedOf m.zoneValues force g.Zones)] else []))
    ∧ (∀ sid v, (sid, v) ∈ cachedOf m.sensorValues force g.Sensors ↔
        sid ∈ g.Sensors ∧ force = false ∧ lookupA m.sensorValues sid = some v)
    ∧ (∀ sid, sid ∈ uncachedOf m.sensorValues force g.Sensors ↔
        sid ∈ g.Sensors ∧ (force = true ∨ lookupA m.sensorValues sid = none))
    ∧ (∀ zid v, (zid, v) ∈ cachedOf m.zoneValues force g.Zones ↔
        zid ∈ g.Zones ∧ force = false ∧ lookupA m.zoneValues zid = some v)
    ∧ (∀ zid, zid ∈ uncachedOf m.zoneValues force g.Zones ↔
        zid ∈ g.Zones ∧ (force = true ∨ lookupA m.zoneValues zid = none)) :=
  ⟨Refresh_eq m monitorID force g h,
   fun sid v => mem_cachedOf m.sensorValues force g.Sensors sid v,
   fun sid => mem_uncachedOf m.sensorValues force g.Sensors sid,
   fun zid v => mem_cachedOf m.zoneValues force g.Zones zid v,
   fun zid => mem_uncachedOf m.zoneValues force g.Zones zid⟩

/-- An example attribute for the concrete instances below. -/
def attrW : SensorAttr := { Name := "temp", Value := "20" }

/-- An example level for the concrete instances below. -/
def lvlW : Level := { Value := 50 }

/-- An example group subscribed to two sensors and two zones. -/
def gW : MonitorGroup :=
  { Zones := ["z1", "z2"], Sensors := ["s1", "s2"], Handler := 7,
    Timeout := 10, timeoutAbsolute := 0, id := "1" }

/-- An example monitor holding `gW` under ID "1" with values cached for
`s1` and `z1` only. -/
def mW : Monitor :=
  { groups := [("1", gW)]
    nextID := 2
    sensorToGroups := [("s1", ["1"]), ("s2", ["1"])]
    zoneToGroups := [("z1", ["1"]), ("z2", ["1"])]
    sensorValues := [("s1", attrW)]
    zoneValues := [("z1", lvlW)] }

/-- C1, instantiated: on `mW` a plain `Refresh` answers `s1`/`z1` from
cache in one batch and requests `s2`/`z2`. -/
theorem claim_C1_witness :
    mW.Refresh "1" false =
      [Effect.update 7 { MonitorID := "1", Sensors := [("s1", attrW)], Zones := [("z1", lvlW)] },
       Effect.sensorsReport ["s2"], Effect.zonesReport ["z2"]] := by
  have h := (claim_C1_refresh_classification mW "1" false gW (by decide)).1
  rw [h]
  decide

/-- C3: `Subscribe` of a group with no zones and no sensors fails with the
invalid-argument error and returns the state unchanged with no effects. -/
theorem claim_C3_subscribe_empty (m : Monitor) (g : MonitorGroup) (refresh : Bool)
    (now : Nat) (hs : g.Sensors = []) (hz : g.Zones = []) :
    m.Subscribe g refresh now
      = (Except.error "no zones or sensors listed in the monitor group", m, []) :=
  Subscribe_eq_of_empty m g refresh now (by simp [hs]) (by simp [hz])

/-- C3, instantiated at an empty group on `mW`. -/
theorem claim_C3_witness :
    mW.Subscribe { Zones := [], Sensors := [], Handler := 9, Timeout := 5, timeoutAbsolute := 0, id := "" } true 3
      = (Except.error "no zones or sensors listed in the monitor group", mW, []) :=
  claim_C3_subscribe_empty mW _ true 3 rfl rfl

/-- C7: `SubscribeRenew` on an unknown ID errors and leaves the state
untouched; on a known ID it succeeds, resets only that group's absolute
expiry to `now` plus the group's originally requested lease, and changes
nothing else. -/
theorem claim_C7_renew (m : Monitor) (monitorID : String) (now : Nat) :
    (lookupA m.groups monitorID = none →
      m.SubscribeRenew monitorID now
        = (Except.error ("invalid monitor ID: " ++ monitorID), m)) ∧
    (∀ g, lookupA m.groups monitorID = some g →
      (m.SubscribeRenew monitorID now).1 = Except.ok () ∧
      lookupA (m.SubscribeRenew monitorID now).2.groups monitorID
        = some { g with timeoutAbsolute := now + g.Timeout } ∧
      (∀ gid, gid ≠ monitorID →
        lookupA (m.SubscribeRenew monitorID now).2.groups gid = lookupA m.groups gid) ∧
      (m.SubscribeRenew monitorID now).2.nextID = m.nextID ∧
      (m.SubscribeRenew monitorID now).2.sensorToGroups = m.sensorToGroups ∧
      (m.SubscribeRenew monitorID now).2.zoneToGroups = m.zoneToGroups ∧
      (m.SubscribeRenew monitorID now).2.sensorValues = m.sensorValues ∧
      (m.SubscribeRenew monitorID now).2.zoneValues = m.zoneValues) := by
  constructor
  · intro h
    exact SubscribeRenew_unknown m monitorID now h
  · intro g hg
    rw [SubscribeRenew_known m monitorID now g hg]
    refine ⟨rfl, ?_, ?_, rfl, rfl, rfl, rfl, rfl⟩
    · show lookupA (insertA m.groups monitorID (Monitor.setTimeoutOnGroup g now)) monitorID
        = some { g with timeoutAbsolute := now + g.Timeout }
      rw [lookupA_insertA, if_pos rfl]
      rfl
    · intro gid hgid
      show lookupA (insertA m.groups monitorID (Monitor.setTimeoutOnGroup g now)) gid
        = lookupA m.groups gid
      rw [lookupA_insertA, if_neg (fun hq => hgid hq.symm)]

/-- C8: `InvalidateValues` on an unknown ID is the identity; on a known ID
it drops the cached values of exactly the group's zones and sensors,
touches neither the group table nor the reverse indices, and a following
`Refresh(monitorID, force=false)` publishes report requests for the whole
group with no immediate `Update`. -/
theorem claim_C8_invalidate (m : Monitor) (monitorID : String) :
    (lookupA m.groups monitorID = none → m.InvalidateValues monitorID = m) ∧
    (∀ g, lookupA m.groups monitorID = some g →
      (m.InvalidateValues monitorID).groups = m.groups ∧
      (m.InvalidateValues monitorID).sensorToGroups = m.sensorToGroups ∧
      (m.InvalidateValues monitorID).zoneToGroups = m.zoneToGroups ∧
      (m.InvalidateValues monitorID).nextID = m.nextID ∧
      (∀ sid ∈ g.Sensors,
        lookupA (m.InvalidateValues monitorID).sensorValues sid = none) ∧
      (∀ sid, sid ∉ g.Sensors →
        lookupA (m.InvalidateValues monitorID).sensorValues sid
          = lookupA m.sensorValues sid) ∧
      (∀ zid ∈ g.Zones,
        lookupA (m.InvalidateValues monitorID).zoneValues zid = none) ∧
      (∀ zid, zid ∉ g.Zones →
        lookupA (m.InvalidateValues monitorID).zoneValues zid
          = lookupA m.zoneValues zid) ∧
      (m.InvalidateValues monitorID).Refresh monitorID false
        = (if g.Sensors ≠ [] then [Effect.sensorsReport g.Sensors] else [])
          ++ (if g.Zones ≠ [] then [Effect.zonesReport g.Zones] else [])) := by
  constructor
  · intro h
    exact InvalidateValues_unknown m monitorID h
  · intro g hg
    rw [InvalidateValues_known m monitorID g hg]
    have hslook : ∀ sid, lookupA (eraseAll m.sensorValues g.Sensors) sid
        = if sid ∈ g.Sensors then none else lookupA m.sensorValues sid :=
      fun sid => lookupA_eraseAll g.Sensors m.sensorValues sid
    have hzlook : ∀ zid, lookupA (eraseAll m.zoneValues g.Zones) zid
        = if zid ∈ g.Zones then none else lookupA m.zoneValues zid :=
      fun zid => lookupA_eraseAll g.Zones m.zoneValues zid
    refine ⟨rfl, rfl, rfl, rfl, ?_, ?_, ?_, ?_, ?_⟩
    · intro sid hsid
      rw [hslook sid, if_pos hsid]
    · intro sid hsid
      rw [hslook sid, if_neg hsid]
    · intro zid hzid
      rw [hzlook zid, if_pos hzid]
    · intro zid hzid
      rw [hzlook zid, if_neg hzid]
    · have hcachedS : cachedOf (eraseAll m.sensorValues g.Sensors) false g.Sensors = [] := by
        rw [List.eq_nil_iff_forall_not_mem]
        rintro ⟨sid, v⟩ hmem
        rw [mem_cachedOf] at hmem
        rw [hslook sid, if_pos hmem.1] at hmem
        exact Option.noConfusion hmem.2.2
      have hcachedZ : cachedOf (eraseAll m.zoneValues g.Zones) false g.Zones = [] := by
        rw [List.eq_nil_iff_forall_not_mem]
        rintro ⟨zid, v⟩ hmem
        rw [mem_cachedOf] at hmem
        rw [hzlook zid, if_pos hmem.1] at hmem
        exact Option.noConfusion hmem.2.2
      have huncachedS : uncachedOf (eraseAll m.sensorValues g.Sensors) false g.Sensors
          = g.Sensors := by
        unfold uncachedOf
        apply filter_all_true
        intro sid hsid
        rw [hslook sid, if_pos hsid]
        rfl
      have huncachedZ : uncachedOf (eraseAll m.zoneValues g.Zones) false g.Zones
          = g.Zones := by
        unfold uncachedOf
        apply filter_all_true
        intro zid hzid
        rw [hzlook zid, if_pos hzid]
        rfl
      have hlook2 : lookupA ({ m with
          sensorValues := eraseAll m.sensorValues g.Sensors,
          zoneValues := eraseAll m.zoneValues g.Zones } : Monitor).groups monitorID
          = some g := hg
      rw [Refresh_eq _ monitorID false g hlook2]
      simp only [hcachedS, hcachedZ, huncachedS, huncachedZ]
      simp

/-- C9: in the access-trace model of monitor.go's locking, the existence
check that `Unsubscribe` performs on the group table is the one shared
access that happens without the lock (also reached through the sweep's call
to `Unsubscribe`); every other access of every operation holds the reader
or writer lock. -/
theorem claim_C9_unsubscribe_unlocked_check :
    unsubscribeAccesses.head?
      = some { field := SharedField.groupsField, mode := LockMode.unlocked } ∧
    ({ field := SharedField.groupsField, mode := LockMode.unlocked } : FieldAccess)
      ∈ unsubscribeAccesses ∧
    (∀ entry ∈ monitorAccessTable, ∀ a ∈ entry.2, a.mode = LockMode.unlocked →
      (entry.1 = "Unsubscribe" ∨ entry.1 = "handleTimeouts") ∧
      a = { field := SharedField.groupsField, mode := LockMode.unlocked }) := by
  refine ⟨rfl, by decide, by decide⟩

/-! ## Dedupe helpers (claim C2) -/

theorem sensor_noop (m : Monitor) (sid : String) (a : SensorAttr) (cur : SensorAttr)
    (hs : lookupA m.sensorValues sid = some cur) (hv : cur.Value = a.Value) :
    m.sensorAttrChanged sid a = (m, []) := by
  unfold Monitor.sensorAttrChanged
  cases hg : lookupA m.sensorToGroups sid with
  | none => rfl
  | some gs => simp [hs, hv]

theorem zone_noop (m : Monitor) (zid : String) (v : Level) (cur : Level)
    (hz : lookupA m.zoneValues zid = some cur) (hv : cur = v) :
    m.zoneLevelChanged zid v = (m, []) := by
  unfold Monitor.zoneLevelChanged
  cases hg : lookupA m.zoneToGroups zid with
  | none => rfl
  | some gs => simp [hz, hv]

theorem sensorAttrChanged_twice (m : Monitor) (sid : String) (a : SensorAttr) :
    (m.sensorAttrChanged sid a).1.sensorAttrChanged sid a
      = ((m.sensorAttrChanged sid a).1, []) := by
  cases hg : lookupA m.sensorToGroups sid with
  | none =>
    have h1 : m.sensorAttrChanged sid a = (m, []) := by
      unfold Monitor.sensorAttrChanged
      rw [hg]
    rw [h1]
    unfold Monitor.sensorAttrChanged
    rw [hg]
  | some gs =>
    by_cases hd : (match lookupA m.sensorValues sid with
        | some currentVal => currentVal.Value == a.Value
        | none => false) = true
    · have h1 : m.sensorAttrChanged sid a = (m, []) := by
        unfold Monitor.sensorAttrChanged
        rw [hg]
        simp only [hd, if_true]
      rw [h1]
      exact h1
    · have h1 : m.sensorAttrChanged sid a
          = ({ m with sensorValues := insertA m.sensorValues sid a },
             gs.filterMap (fun groupID =>
               (lookupA m.groups groupID).map (fun group =>
                 Effect.update group.Handler
                   { MonitorID := groupID, Sensors := [(sid, a)], Zones := [] }))) := by
        unfold Monitor.sensorAttrChanged
        rw [hg]
        simp only [hd, if_false]
        rfl
      rw [h1]
      unfold Monitor.sensorAttrChanged
      rw [show lookupA ({ m with
          sensorValues := insertA m.sensorValues sid a } : Monitor).sensorToGroups sid
        = some gs from hg]
      have hlk : lookupA (insertA m.sensorValues sid a) sid = some a := by
        rw [lookupA_insertA, if_pos rfl]
      simp [hlk]

theorem zoneLevelChanged_twice (m : Monitor) (zid : String) (v : Level) :
    (m.zoneLevelChanged zid v).1.zoneLevelChanged zid v
      = ((m.zoneLevelChanged zid v).1, []) := by
  cases hg : lookupA m.zoneToGroups zid with
  | none =>
    have h1 : m.zoneLevelChanged zid v = (m, []) := by
      unfold Monitor.zoneLevelChanged
      rw [hg]
    rw [h1]
    unfold Monitor.zoneLevelChanged
    rw [hg]
  | some gs =>
    by_cases hd : (match lookupA m.zoneValues zid with
        | some currentVal => currentVal == v
        | none => false) = true
    · have h1 : m.zoneLevelChanged zid v = (m, []) := by
        unfold Monitor.zoneLevelChanged
        rw [hg]
        simp only [hd, if_true]
      rw [h1]
      exact h1
    · have h1 : m.zoneLevelChanged zid v
          = ({ m with zoneValues := insertA m.zoneValues zid v },
             gs.filterMap (fun groupID =>
               (lookupA m.groups groupID).map (fun group =>
                 Effect.update group.Handler
                   { MonitorID := groupID, Sensors := [], Zones := [(zid, v)] }))) := by
        unfold Monitor.zoneLevelChanged
        rw [hg]
        simp only [hd, if_false]
        rfl
      rw [h1]
      unfold Monitor.zoneLevelChanged
      rw [show lookupA ({ m with
          zoneValues := insertA m.zoneValues zid v } : Monitor).zoneToGroups zid
        = some gs from hg]
      have hlk : lookupA (insertA m.zoneValues zid v) zid = some v := by
        rw [lookupA_insertA, if_pos rfl]
      simp [hlk]

theorem fanOut_sensor (m : Monitor) (sid : String) (a : SensorAttr) :
    ∀ gs : List String, (∀ gid ∈ gs, (lookupA m.groups gid).isSome) →
      gs.filterMap (fun groupID => (lookupA m.groups groupID).map (fun group =>
          Effect.update group.Handler
            { MonitorID := groupID, Sensors := [(sid, a)], Zones := [] }))
        = gs.map (fun gid => Effect.update (handlerOf m gid)
            { MonitorID := gid, Sensors := [(sid, a)], Zones := [] }) := by
  intro gs
  induction gs with
  | nil => intro h; rfl
  | cons x xs ih =>
    intro h
    have hx := h x (List.mem_cons_self x xs)
    cases hl : lookupA m.groups x with
    | none => rw [hl] at hx; simp at hx
    | some g =>
      simp only [List.filterMap_cons, List.map_cons, hl, Option.map_some']
      rw [ih (fun gid hg => h gid (List.mem_cons_of_mem _ hg))]
      simp [handlerOf, hl]

theorem fanOut_zone (m : Monitor) (zid : String) (v : Level) :
    ∀ gs : List String, (∀ gid ∈ gs, (lookupA m.groups gid).isSome) →
      gs.filterMap (fun groupID => (lookupA m.groups groupID).map (fun group =>
          Effect.update group.Handler
            { MonitorID := groupID, Sensors := [], Zones := [(zid, v)] }))
        = gs.map (fun gid => Effect.update (handlerOf m gid)
            { MonitorID := gid, Sensors := [], Zones := [(zid, v)] }) := by
  intro gs
  induction gs with
  | nil => intro h; rfl
  | cons x xs ih =>
    intro h
    have hx := h x (List.mem_cons_self x xs)
    cases hl : lookupA m.groups x with
    | none => rw [hl] at hx; simp at hx
    | some g =>
      simp only [List.filterMap_cons, List.map_cons, hl, Option.map_some']
      rw [ih (fun gid hg => h gid (List.mem_cons_of_mem _ hg))]
      simp [handlerOf, hl]

theorem sensor_first_delivery (m : Monitor) (sid : String) (a : SensorAttr)
    (gs : List String)
    (hg : lookupA m.sensorToGroups sid = some gs)
    (hnew : ∀ cur, lookupA m.sensorValues sid = some cur → cur.Value ≠ a.Value)
    (hlive : ∀ gid ∈ gs, (lookupA m.groups gid).isSome) :
    (m.sensorAttrChanged sid a).2
      = gs.map (fun gid => Effect.update (handlerOf m gid)
          { MonitorID := gid, Sensors := [(sid, a)], Zones := [] }) := by
  have hd : (match lookupA m.sensorValues sid with
      | some currentVal => currentVal.Value == a.Value
      | none => false) = false := by
    cases hv : lookupA m.sensorValues sid with
    | none => rfl
    | some cur =>
      simp only []
      exact beq_eq_false_iff_ne.mpr (hnew cur hv)
  unfold Monitor.sensorAttrChanged
  rw [hg]
  simp only [hd, Bool.false_eq_true, if_false]
  exact fanOut_sensor m sid a gs hlive

theorem zone_first_delivery (m : Monitor) (zid : String) (v : Level)
    (gs : List String)
    (hg : lookupA m.zoneToGroups zid = some gs)
    (hnew : ∀ cur, lookupA m.zoneValues zid = some cur → cur ≠ v)
    (hlive : ∀ gid ∈ gs, (lookupA m.groups gid).isSome) :
    (m.zoneLevelChanged zid v).2
      = gs.map (fun gid => Effect.update (handlerOf m gid)
          { MonitorID := gid, Sensors := [], Zones := [(zid, v)] }) := by
  have hd : (match lookupA m.zoneValues zid with
      | some currentVal => currentVal == v
      | none => false) = false := by
    cases hv : lookupA m.zoneValues zid with
    | none => rfl
    | some cur =>
      simp only []
      exact beq_eq_false_iff_ne.mpr (hnew cur hv)
  unfold Monitor.zoneLevelChanged
  rw [hg]
  simp only [hd, Bool.false_eq_true, if_false]
  exact fanOut_zone m zid v gs hlive

/-- C2: a monitored sensor (resp. zone) whose incoming value equals the
cached one is discarded: no state change and no delegate call.  Hence a
genuine change fans exactly one `Update` out to each interested group, and
an immediately repeated identical delivery changes nothing and notifies
nobody, for sensors and zones alike. -/
theorem claim_C2_dedupe (m : Monitor) (sensorID : String) (attr cur : SensorAttr)
    (hs : lookupA m.sensorValues sensorID = some cur)
    (hv : cur.Value = attr.Value) :
    m.sensorAttrChanged sensorID attr = (m, []) ∧
    (∀ (m2 : Monitor) (zid : String) (v curz : Level),
      lookupA m2.zoneValues zid = some curz → curz = v →
      m2.zoneLevelChanged zid v = (m2, [])) ∧
    (∀ (m2 : Monitor) (sid : String) (a : SensorAttr),
      (m2.sensorAttrChanged sid a).1.sensorAttrChanged sid a
        = ((m2.sensorAttrChanged sid a).1, [])) ∧
    (∀ (m2 : Monitor) (zid : String) (v : Level),
      (m2.zoneLevelChanged zid v).1.zoneLevelChanged zid v
        = ((m2.zoneLevelChanged zid v).1, [])) ∧
    (∀ (m2 : Monitor) (sid : String) (a : SensorAttr) (gs : List String),
      lookupA m2.sensorToGroups sid = some gs →
      (∀ cur2, lookupA m2.sensorValues sid = some cur2 → cur2.Value ≠ a.Value) →
      (∀ gid ∈ gs, (lookupA m2.groups gid).isSome) →
      (m2.sensorAttrChanged sid a).2
        = gs.map (fun gid => Effect.update (handlerOf m2 gid)
            { MonitorID := gid, Sensors := [(sid, a)], Zones := [] })) ∧
    (∀ (m2 : Monitor) (zid : String) (v : Level) (gs : List String),
      lookupA m2.zoneToGroups zid = some gs →
      (∀ cur2, lookupA m2.zoneValues zid = some cur2 → cur2 ≠ v) →
      (∀ gid ∈ gs, (lookupA m2.groups gid).isSome) →
      (m2.zoneLevelChanged zid v).2
        = gs.map (fun gid => Effect.update (handlerOf m2 gid)
            { MonitorID := gid, Sensors := [], Zones := [(zid, v)] })) :=
  ⟨sensor_noop m sensorID attr cur hs hv,
   fun m2 zid v curz hz hvz => zone_noop m2 zid v curz hz hvz,
   fun m2 sid a => sensorAttrChanged_twice m2 sid a,
   fun m2 zid v => zoneLevelChanged_twice m2 zid v,
   fun m2 sid a gs hg hnew hlive => sensor_first_delivery m2 sid a gs hg hnew hlive,
   fun m2 zid v gs hg hnew hlive => zone_first_delivery m2 zid v gs hg hnew hlive⟩

/-- C2, instantiated: on `mW`, re-delivering the cached value of `s1`
changes nothing, and a genuine change to `z1` produces exactly one
`Update` for the one interested group. -/
theorem claim_C2_witness :
    mW.sensorAttrChanged "s1" attrW = (mW, []) ∧
    (mW.zoneLevelChanged "z1" { Value := 60 }).2
      = [Effect.update 7 { MonitorID := "1", Sensors := [], Zones := [("z1", { Value := 60 })] }] := by
  have h := claim_C2_dedupe mW "s1" attrW attrW (by decide) rfl
  refine ⟨h.1, ?_⟩
  have h2 := h.2.2.2.2.2 mW "z1" { Value := 60 } ["1"] (by decide)
    (by
      intro cur2 hc
      have he : (some lvlW : Option Level) = some cur2 := by rw [← hc]; rfl
      have hcv : lvlW = cur2 := Option.some.inj he
      rw [← hcv]
      decide) (by decide)
  rw [h2]
  decide

/-- C4: on a reachable state, subscribing a non-empty group succeeds,
returns the rendering of the incremented counter — a string distinct from
every currently-live group ID — stores the group with expiry
`now + leaseDuration`, and registers a reverse-index entry pointing at the
new ID for every listed sensor and zone. -/
theorem claim_C4_subscribe_success (m : Monitor) (g : MonitorGroup) (now : Nat)
    (hr : Reachable m) (hne : ¬(g.Sensors = [] ∧ g.Zones = [])) :
    (m.Subscribe g false now).1 = Except.ok (Itoa m.nextID) ∧
    (m.Subscribe g false now).2.1.nextID = m.nextID + 1 ∧
    (∀ gid, (lookupA m.groups gid).isSome → Itoa m.nextID ≠ gid) ∧
    lookupA (m.Subscribe g false now).2.1.groups (Itoa m.nextID)
      = some { g with id := Itoa m.nextID, timeoutAbsolute := now + g.Timeout } ∧
    (∀ sid ∈ g.Sensors, ∃ gs,
      lookupA (m.Subscribe g false now).2.1.sensorToGroups sid = some gs ∧
      Itoa m.nextID ∈ gs) ∧
    (∀ zid ∈ g.Zones, ∃ gs,
      lookupA (m.Subscribe g false now).2.1.zoneToGroups zid = some gs ∧
      Itoa m.nextID ∈ gs) := by
  have hne2 : ¬(g.Sensors.length = 0 ∧ g.Zones.length = 0) := by
    simpa [List.length_eq_zero] using hne
  have hsi := reachable_structInv hr
  have hfresh := fresh_id m hsi.1
  rw [Subscribe_eq_of_ne m g false now hne2]
  refine ⟨rfl, rfl, ?_, ?_, ?_, ?_⟩
  · intro gid hgid hq
    rw [← hq] at hgid
    rw [hfresh] at hgid
    simp at hgid
  · show lookupA (insertA m.groups (Itoa m.nextID)
        (Monitor.setTimeoutOnGroup { g with id := Itoa m.nextID } now)) (Itoa m.nextID) = _
    rw [lookupA_insertA, if_pos rfl]
    rfl
  · intro sid hsid
    show ∃ gs, lookupA (addToIndex (Itoa m.nextID) g.Sensors m.sensorToGroups) sid
      = some gs ∧ Itoa m.nextID ∈ gs
    rw [lookupA_addToIndex, if_pos hsid]
    cases hold : lookupA m.sensorToGroups sid with
    | some gs0 => exact ⟨insertSet gs0 (Itoa m.nextID), rfl, self_mem_insertSet _ _⟩
    | none => exact ⟨[Itoa m.nextID], rfl, by simp⟩
  · intro zid hzid
    show ∃ gs, lookupA (addToIndex (Itoa m.nextID) g.Zones m.zoneToGroups) zid
      = some gs ∧ Itoa m.nextID ∈ gs
    rw [lookupA_addToIndex, if_pos hzid]
    cases hold : lookupA m.zoneToGroups zid with
    | some gs0 => exact ⟨insertSet gs0 (Itoa m.nextID), rfl, self_mem_insertSet _ _⟩
    | none => exact ⟨[Itoa m.nextID], rfl, by simp⟩

/-- C4, instantiated on the fresh monitor: the first subscription succeeds
with ID "1". -/
theorem claim_C4_witness :
    ((NewMonitor none none).Subscribe gW false 5).1 = Except.ok (Itoa 1) ∧ Itoa 1 = "1" :=
  ⟨(claim_C4_subscribe_success (NewMonitor none none) gW 5
      ⟨none, none, Relation.ReflTransGen.refl⟩ (by decide)).1,
   by decide⟩

/-- C5 as stated is false: `NewMonitor` accepts preloaded cached values, so
a reachable state (the initial one) holds a cached sensor value while no
group at all is live. -/
theorem claim_C5_counterexample :
    Reachable (NewMonitor (some [("s1", attrW)]) none) ∧
    (lookupA (NewMonitor (some [("s1", attrW)]) none).sensorValues "s1").isSome ∧
    (NewMonitor (some [("s1", attrW)]) none).groups = [] :=
  ⟨⟨some [("s1", attrW)], none, Relation.ReflTransGen.refl⟩, by decide, rfl⟩

/-- C5, amended: in every state reachable from a `NewMonitor` with no
preloaded values, a cached value exists only for an entity some live group
lists; values for unmonitored entities are discarded without caching; and
after an `Unsubscribe`, an entity no live group lists has neither a
reverse-index entry nor a cached value. -/
theorem claim_C5_cache_entry_monitored (m : Monitor) (hr : ReachableNil m) :
    (∀ sid, (lookupA m.sensorValues sid).isSome →
      ∃ gid g, lookupA m.groups gid = some g ∧ sid ∈ g.Sensors) ∧
    (∀ zid, (lookupA m.zoneValues zid).isSome →
      ∃ gid g, lookupA m.groups gid = some g ∧ zid ∈ g.Zones) ∧
    (∀ (m2 : Monitor) (sid : String) (a : SensorAttr),
      lookupA m2.sensorToGroups sid = none → m2.sensorAttrChanged sid a = (m2, [])) ∧
    (∀ (m2 : Monitor) (zid : String) (v : Level),
      lookupA m2.zoneToGroups zid = none → m2.zoneLevelChanged zid v = (m2, [])) ∧
    (∀ mid sid,
      (¬∃ gid g, lookupA (m.Unsubscribe mid).1.groups gid = some g ∧ sid ∈ g.Sensors) →
      lookupA (m.Unsubscribe mid).1.sensorToGroups sid = none ∧
      lookupA (m.Unsubscribe mid).1.sensorValues sid = none) ∧
    (∀ mid zid,
      (¬∃ gid g, lookupA (m.Unsubscribe mid).1.groups gid = some g ∧ zid ∈ g.Zones) →
      lookupA (m.Unsubscribe mid).1.zoneToGroups zid = none ∧
      lookupA (m.Unsubscribe mid).1.zoneValues zid = none) := by
  obtain ⟨hsi, hci⟩ := reachableNil_good hr
  have hcachemon : ∀ (mx : Monitor), StructInv mx → CacheInv mx →
      (∀ sid, (lookupA mx.sensorValues sid).isSome →
        ∃ gid g, lookupA mx.groups gid = some g ∧ sid ∈ g.Sensors) := by
    intro mx hsx hcx sid hsome
    obtain ⟨gs, hgs⟩ := Option.isSome_iff_exists.mp (hcx.1 sid hsome)
    obtain ⟨hne0, hall⟩ := hsx.2.2.2.1 sid gs hgs
    obtain ⟨gid, hgid⟩ := exists_mem_of_ne_nil2 gs hne0
    obtain ⟨g, hg, hmem⟩ := hall gid hgid
    exact ⟨gid, g, hg, hmem⟩
  have hcachemonz : ∀ (mx : Monitor), StructInv mx → CacheInv mx →
      (∀ zid, (lookupA mx.zoneValues zid).isSome →
        ∃ gid g, lookupA mx.groups gid = some g ∧ zid ∈ g.Zones) := by
    intro mx hsx hcx zid hsome
    obtain ⟨gs, hgs⟩ := Option.isSome_iff_exists.mp (hcx.2 zid hsome)
    obtain ⟨hne0, hall⟩ := hsx.2.2.2.2 zid gs hgs
    obtain ⟨gid, hgid⟩ := exists_mem_of_ne_nil2 gs hne0
    obtain ⟨g, hg, hmem⟩ := hall gid hgid
    exact ⟨gid, g, hg, hmem⟩
  have hidxmon : ∀ (mx : Monitor), StructInv mx →
      ∀ sid, (¬∃ gid g, lookupA mx.groups gid = some g ∧ sid ∈ g.Sensors) →
        lookupA mx.sensorToGroups sid = none := by
    intro mx hsx sid hnone
    cases hgs : lookupA mx.sensorToGroups sid with
    | none => rfl
    | some gs =>
      obtain ⟨hne0, hall⟩ := hsx.2.2.2.1 sid gs hgs
      obtain ⟨gid, hgid⟩ := exists_mem_of_ne_nil2 gs hne0
      obtain ⟨g, hg, hmem⟩ := hall gid hgid
      exact absurd ⟨gid, g, hg, hmem⟩ hnone
  have hidxmonz : ∀ (mx : Monitor), StructInv mx →
      ∀ zid, (¬∃ gid g, lookupA mx.groups gid = some g ∧ zid ∈ g.Zones) →
        lookupA mx.zoneToGroups zid = none := by
    intro mx hsx zid hnone
    cases hgs : lookupA mx.zoneToGroups zid with
    | none => rfl
    | some gs =>
      obtain ⟨hne0, hall⟩ := hsx.2.2.2.2 zid gs hgs
      obtain ⟨gid, hgid⟩ := exists_mem_of_ne_nil2 gs hne0
      obtain ⟨g, hg, hmem⟩ := hall gid hgid
      exact absurd ⟨gid, g, hg, hmem⟩ hnone
  refine ⟨hcachemon m hsi hci, hcachemonz m hsi hci, ?_, ?_, ?_, ?_⟩
  · intro m2 sid a hnone
    unfold Monitor.sensorAttrChanged
    rw [hnone]
  · intro m2 zid v hnone
    unfold Monitor.zoneLevelChanged
    rw [hnone]
  · intro mid sid hnone
    have hr2 : ReachableNil (m.Unsubscribe mid).1 :=
      Relation.ReflTransGen.tail hr (Step.unsubscribe m mid)
    obtain ⟨hsi2, hci2⟩ := reachableNil_good hr2
    have hidx := hidxmon _ hsi2 sid hnone
    refine ⟨hidx, ?_⟩
    cases hval : lookupA (m.Unsubscribe mid).1.sensorValues sid with
    | none => rfl
    | some v =>
      have := hci2.1 sid (by rw [hval]; rfl)
      rw [hidx] at this
      simp at this
  · intro mid zid hnone
    have hr2 : ReachableNil (m.Unsubscribe mid).1 :=
      Relation.ReflTransGen.tail hr (Step.unsubscribe m mid)
    obtain ⟨hsi2, hci2⟩ := reachableNil_good hr2
    have hidx := hidxmonz _ hsi2 zid hnone
    refine ⟨hidx, ?_⟩
    cases hval : lookupA (m.Unsubscribe mid).1.zoneValues zid with
    | none => rfl
    | some v =>
      have := hci2.2 zid (by rw [hval]; rfl)
      rw [hidx] at this
      simp at this

/-- C5, instantiated: on the fresh empty monitor an incoming value for an
unmonitored sensor is discarded without any state change or notification. -/
theorem claim_C5_witness :
    (NewMonitor none none).sensorAttrChanged "s9" attrW = (NewMonitor none none, []) :=
  (claim_C5_cache_entry_monitored (NewMonitor none none)
      Relation.ReflTransGen.refl).2.2.1 (NewMonitor none none) "s9" attrW (by decide)

/-- C6: `Unsubscribe` of an unknown ID changes nothing; a second
`Unsubscribe` of any ID equals the first; and `Unsubscribe` itself makes no
delegate or bus calls. -/
theorem claim_C6_unsubscribe_idempotent (m : Monitor) (monitorID : String)
    (hunk : lookupA m.groups monitorID = none) :
    m.Unsubscribe monitorID = (m, []) ∧
    (∀ (m2 : Monitor) (mid : String),
      (m2.Unsubscribe mid).1.Unsubscribe mid = ((m2.Unsubscribe mid).1, []) ∧
      (m2.Unsubscribe mid).2 = []) := by
  refine ⟨Unsubscribe_unknown m monitorID hunk, ?_⟩
  intro m2 mid
  constructor
  · cases h : lookupA m2.groups mid with
    | none =>
      rw [Unsubscribe_unknown m2 mid h]
      exact Unsubscribe_unknown m2 mid h
    | some g =>
      rw [Unsubscribe_known m2 mid g h]
      exact Unsubscribe_unknown _ mid (by
        show lookupA (eraseA m2.groups mid) mid = none
        rw [lookupA_eraseA, if_pos rfl])
  · cases h : lookupA m2.groups mid with
    | none => rw [Unsubscribe_unknown m2 mid h]
    | some g => rw [Unsubscribe_known m2 mid g h]

/-- C6, instantiated: unsubscribing an ID the fresh monitor never issued is
a no-op. -/
theorem claim_C6_witness :
    (NewMonitor none none).Unsubscribe "1" = (NewMonitor none none, []) :=
  (claim_C6_unsubscribe_idempotent (NewMonitor none none) "1" (by decide)).1

/-- C10: once a `Subscribe` has returned an ID, no later `Subscribe` —
after any number of further operations, including unsubscriptions and
expiry sweeps — returns that ID again, because the counter only ever
increments. -/
theorem claim_C10_ids_never_reused (m1 m2 mA mB : Monitor) (g1 g2 : MonitorGroup)
    (r1 r2 : Bool) (now1 now2 : Nat) (id1 id2 : String) (e1 e2 : List Effect)
    (h1 : m1.Subscribe g1 r1 now1 = (Except.ok id1, mA, e1))
    (hsteps : Steps mA m2)
    (h2 : m2.Subscribe g2 r2 now2 = (Except.ok id2, mB, e2)) :
    id2 ≠ id1 ∧ m1.nextID < m2.nextID := by
  obtain ⟨hid1, hmA⟩ := Subscribe_ok_elim _ _ _ _ _ _ _ h1
  obtain ⟨hid2, _⟩ := Subscribe_ok_elim _ _ _ _ _ _ _ h2
  have hmono := steps_nextID_mono hsteps
  rw [hmA] at hmono
  have hstep1 : (subscribeState m1 g1 now1).nextID = m1.nextID + 1 := rfl
  have hlt : m1.nextID < m2.nextID := by omega
  refine ⟨?_, hlt⟩
  rw [hid1, hid2]
  intro hq
  have := Itoa_injective hq
  omega

/-- C10, instantiated: two consecutive subscriptions on the fresh monitor
return "1" then "2". -/
theorem claim_C10_witness :
    ("2" : String) ≠ "1" ∧
      (NewMonitor none none).nextID < (subscribeState (NewMonitor none none) gW 0).nextID :=
  claim_C10_ids_never_reused (NewMonitor none none)
    (subscribeState (NewMonitor none none) gW 0)
    (subscribeState (NewMonitor none none) gW 0)
    (subscribeState (subscribeState (NewMonitor none none) gW 0) gW 0)
    gW gW false false 0 0 "1" "2" [] []
    (by rfl) Relation.ReflTransGen.refl (by rfl)
